import Mathlib

/-!
# Verification development for selected parts of grafana

Shallow embedding of

* `pkg/services/ngalert/api` : `statusForTestReceivers` (exercised by
  `api_alertmanager_test.go`),
* `pkg/services/ngalert/notifier/status.go` : `Alertmanager.GetStatus`,
* `pkg/infra/kvstore/kvstore.go` : `KVStore`, `NamespacedKVStore`,
* `pkg/tsdb/cloudwatch/request_parser.go` : `parseQueries`,
  `migrateLegacyQuery`, `parseRequestQuery`, `parseDimensions`,
  `sortDimensions`,
* `pkg/services/alerting/notifiers/wechat.go` : `NewWeChatNotifier`,
  `WeChatNotifier.GetAccessToken`.

Definitions come first, theorems afterwards.
-/

set_option autoImplicit false

namespace Grafana

/-! ## Receiver test results (package `ngalert/api`) -/

/-- Error carried by a `TestReceiverConfigResult`.  The test file builds
`notifier.InvalidReceiverError{}` and `notifier.ReceiverTimeoutError{}`; the
two further kinds are the remaining members of the closed error taxonomy
(delivery failure, unknown).  Every kind carries a message. -/
inductive ReceiverError where
  | InvalidReceiverError (msg : String)
  | ReceiverTimeoutError (msg : String)
  | DeliveryFailure (msg : String)
  | Unknown (msg : String)
  deriving DecidableEq, Repr

/-- Go struct `TestReceiverConfigResult` as the test file builds it:
`Name`, `UID`, `Status` and an `Error` that is `nil` for a config that is ok. -/
structure TestReceiverConfigResult where
  Name : String
  UID : String
  Status : String
  Error : Option ReceiverError
  deriving DecidableEq, Repr

/-- Go struct `TestReceiverResult`: a receiver name and the ordered results
of its configs. -/
structure TestReceiverResult where
  Name : String
  Configs : List TestReceiverConfigResult
  deriving DecidableEq, Repr

/-- Precedence rank of one config result: invalid configuration (3) over
timeout (2) over delivery failure and unknown (1) over no error (0). -/
def errorRank : Option ReceiverError → Nat
  | some (ReceiverError.InvalidReceiverError _) => 3
  | some (ReceiverError.ReceiverTimeoutError _) => 2
  | some (ReceiverError.DeliveryFailure _) => 1
  | some (ReceiverError.Unknown _) => 1
  | none => 0

/-- All config results of a request, receivers flattened in order. -/
def allConfigs (v : List TestReceiverResult) : List TestReceiverConfigResult :=
  v.flatMap (fun r => r.Configs)

/-- Highest precedence rank present among all config results. -/
def aggregateRank (v : List TestReceiverResult) : Nat :=
  (allConfigs v).foldl (fun acc c => max acc (errorRank c.Error)) 0

/-- Modelled from the spec: `statusForTestReceivers` itself is not among the
sources (only its test is).  The aggregate status follows the precedence
table: any invalid configuration gives 400, else any timeout gives 408, else
any other failure gives 500, else, all configs being ok, 200.  The precedence
is computed as the highest rank over the flattened config results. -/
def statusForTestReceivers (v : List TestReceiverResult) : Nat :=
  match aggregateRank v with
  | 0 => 200
  | 1 => 500
  | 2 => 408
  | _ => 400

/-- The literal request of `TestStatusForTestReceivers`. -/
def testRequest : List TestReceiverResult :=
  [ { Name := "test1",
      Configs := [ { Name := "test1", UID := "uid1", Status := "failed",
                     Error := some (ReceiverError.InvalidReceiverError "") } ] },
    { Name := "test2",
      Configs := [ { Name := "test2", UID := "uid2", Status := "failed",
                     Error := some (ReceiverError.ReceiverTimeoutError "") } ] } ]

/-- A request with one ok config, one timed-out config and one receiver
without configs. -/
def timeoutRequest : List TestReceiverResult :=
  [ { Name := "r0", Configs := [] },
    { Name := "r1",
      Configs := [ { Name := "c1", UID := "u1", Status := "ok", Error := none },
                   { Name := "c2", UID := "u2", Status := "failed",
                     Error := some (ReceiverError.ReceiverTimeoutError "deadline") } ] } ]

/-! ## Alertmanager status (package `ngalert/notifier`) -/

/-- State of a Go `sync.RWMutex` as seen by one sequential caller: the number
of read locks held and whether the write lock is held. -/
structure RWMutex where
  readers : Nat
  writer : Bool
  deriving DecidableEq, Repr

/-- `RLock`: succeeds when no writer holds the lock; otherwise the caller
blocks (`none`: a sequential caller gets no further). -/
def RWMutex.RLock (m : RWMutex) : Option RWMutex :=
  if m.writer then none else some { m with readers := m.readers + 1 }

/-- `RUnlock`: releases one read lock. -/
def RWMutex.RUnlock (m : RWMutex) : RWMutex :=
  { m with readers := m.readers - 1 }

/-- The stored user configuration; only its `AlertmanagerConfig` field is read
by `GetStatus`.  The field's type is declared outside the sources and is a
parameter. -/
structure PostableUserConfig (Cfg : Type) where
  AlertmanagerConfig : Cfg

/-- The fields of `Alertmanager` that `GetStatus` touches. -/
structure Alertmanager (Cfg : Type) where
  reloadConfigMtx : RWMutex
  config : PostableUserConfig Cfg

/-- `Alertmanager.GetStatus` (status.go): take the read lock, build the status
from the stored `AlertmanagerConfig`, release the read lock (deferred).
`NewGettableStatus` is declared outside the sources and is a parameter.
Returns the status together with the state after the call. -/
def GetStatus {Cfg Status : Type} (NewGettableStatus : Cfg → Status)
    (am : Alertmanager Cfg) : Option (Status × Alertmanager Cfg) :=
  match am.reloadConfigMtx.RLock with
  | none => none
  | some m1 =>
    let am1 : Alertmanager Cfg := { am with reloadConfigMtx := m1 }
    let status := NewGettableStatus am1.config.AlertmanagerConfig
    some (status, { am1 with reloadConfigMtx := am1.reloadConfigMtx.RUnlock })

/-- A state whose stored configuration is the number 21, with one read lock
held by another reader and no reload in progress. -/
def sampleAlertmanager : Alertmanager Nat :=
  { reloadConfigMtx := { readers := 1, writer := false },
    config := { AlertmanagerConfig := 21 } }

/-! ## Key/value store (package `infra/kvstore`) -/

/-- Go interface `KVStoreBackend` over a backend state `σ`: `Get` returns the
Go pair (value, error) and `Set` returns the error, each with the state after
the call.  `Ctx` is `context.Context`, `Err` the error type. -/
structure KVStoreBackend (σ Ctx Err : Type) where
  Init : σ → Option Err × σ
  Get : Ctx → Int → String → String → σ → (String × Option Err) × σ
  Set : Ctx → Int → String → String → String → σ → Option Err × σ

/-- Go struct `KVStore`; of its fields the methods use `backend`. -/
structure KVStore (σ Ctx Err : Type) where
  backend : KVStoreBackend σ Ctx Err

/-- `KVStore.Get`. -/
def KVStore.Get {σ Ctx Err : Type} (kv : KVStore σ Ctx Err) (ctx : Ctx)
    (orgId : Int) (namespace_ : String) (key : String) (s : σ) :
    (String × Option Err) × σ :=
  kv.backend.Get ctx orgId namespace_ key s

/-- `KVStore.Set`. -/
def KVStore.Set {σ Ctx Err : Type} (kv : KVStore σ Ctx Err) (ctx : Ctx)
    (orgId : Int) (namespace_ : String) (key : String) (value : String) (s : σ) :
    Option Err × σ :=
  kv.backend.Set ctx orgId namespace_ key value s

/-- Go struct `NamespacedKVStore`. -/
structure NamespacedKVStore (σ Ctx Err : Type) where
  kvStore : KVStore σ Ctx Err
  orgId : Int
  namespace_ : String

/-- `KVStore.WithNamespace`: a wrapper with fixed orgId and namespace. -/
def KVStore.WithNamespace {σ Ctx Err : Type} (kv : KVStore σ Ctx Err)
    (orgId : Int) (namespace_ : String) : NamespacedKVStore σ Ctx Err :=
  { kvStore := kv, orgId := orgId, namespace_ := namespace_ }

/-- `NamespacedKVStore.Get`. -/
def NamespacedKVStore.Get {σ Ctx Err : Type} (kv : NamespacedKVStore σ Ctx Err)
    (ctx : Ctx) (key : String) (s : σ) : (String × Option Err) × σ :=
  kv.kvStore.Get ctx kv.orgId kv.namespace_ key s

/-- `NamespacedKVStore.Set`. -/
def NamespacedKVStore.Set {σ Ctx Err : Type} (kv : NamespacedKVStore σ Ctx Err)
    (ctx : Ctx) (key : String) (value : String) (s : σ) : Option Err × σ :=
  kv.kvStore.Set ctx kv.orgId kv.namespace_ key value s

/-! ## JSON documents (package `components/simplejson`) -/

/-- A decoded JSON value, the `interface{}` held by a `simplejson.Json`:
`nil`, `bool`, `json.Number` (kept as its literal text), `string`,
`[]interface{}` and `map[string]interface{}`.  An object is the list of its
entries; Go maps have distinct keys and no order, the list order stands for
the order in which a `range` loop visits the entries. -/
inductive JVal where
  | null
  | bool (b : Bool)
  | num (n : String)
  | str (s : String)
  | arr (xs : List JVal)
  | obj (kvs : List (String × JVal))
  deriving Repr, Inhabited

/-- Outcome of a Go call that can return a value, return an error or panic. -/
inductive Res (ε α : Type) where
  | ok (a : α)
  | error (e : ε)
  | panic (msg : String)
  deriving Repr

/-- The bytes of `DataQuery.JSON` (`json.RawMessage`), identified with the
document they decode to; `malformed` stands for bytes that do not decode. -/
inductive RawJSON where
  | malformed (bytes : String)
  | doc (v : JVal)
  deriving Repr

/-- Modelled from the spec: `simplejson.NewJson` is not among the sources; it
decodes the bytes and fails on bytes that are not JSON. -/
def NewJson : RawJSON → Except String JVal
  | RawJSON.malformed _ => Except.error "invalid character"
  | RawJSON.doc v => Except.ok v

/-- Modelled from the spec: `simplejson.Json.MarshalJSON` is not among the
sources; it encodes the document, which cannot fail for a decoded document. -/
def JVal.MarshalJSON (j : JVal) : Except String RawJSON :=
  Except.ok (RawJSON.doc j)

/-- Modelled from the spec: `simplejson.Json.Get` is not among the sources; it
returns the value under `key` when the document is an object holding the key,
and a `nil` document otherwise. -/
def JVal.Get (j : JVal) (key : String) : JVal :=
  match j with
  | JVal.obj kvs => (kvs.lookup key).getD JVal.null
  | _ => JVal.null

/-- Modelled from the spec: `simplejson.Json.Del` is not among the sources; it
deletes `key` from an object and does nothing to any other document. -/
def JVal.Del (j : JVal) (key : String) : JVal :=
  match j with
  | JVal.obj kvs => JVal.obj (kvs.filter (fun kv => !(kv.1 == key)))
  | other => other

/-- Assignment `m[key] = val` on the entries of a Go map: the value of an
existing key is replaced, a new key is added. -/
def assign {β : Type} : List (String × β) → String → β → List (String × β)
  | [], key, val => [(key, val)]
  | (k, v) :: rest, key, val =>
    if k == key then (k, val) :: rest else (k, v) :: assign rest key val

/-- Modelled from the spec: `simplejson.Json.Set` is not among the sources; it
assigns `m[key] = val` on an object and does nothing to any other document. -/
def JVal.Set (j : JVal) (key : String) (val : JVal) : JVal :=
  match j with
  | JVal.obj kvs => JVal.obj (assign kvs key val)
  | other => other

/-- Modelled from the spec: `simplejson.Json.String` is not among the sources;
it type-asserts the document to a string.  (Named `String_` because `String` is
the type of strings.) -/
def JVal.String_ (j : JVal) : Except String String :=
  match j with
  | JVal.str s => Except.ok s
  | _ => Except.error "type assertion to string failed"

/-- Modelled from the spec: `simplejson.Json.MustString` is not among the
sources; the string, or the default when the document is not a string. -/
def JVal.MustString (j : JVal) (dflt : String) : String :=
  match j with
  | JVal.str s => s
  | _ => dflt

/-- Modelled from the spec: `simplejson.Json.MustBool` is not among the
sources; the boolean, or the default when the document is not a boolean. -/
def JVal.MustBool (j : JVal) (dflt : Bool) : Bool :=
  match j with
  | JVal.bool b => b
  | _ => dflt

/-- Modelled from the spec: `simplejson.Json.MustMap` is not among the sources;
the entries of an object, or the empty default for any other document. -/
def JVal.MustMap (j : JVal) : List (String × JVal) :=
  match j with
  | JVal.obj kvs => kvs
  | _ => []

/-- One element of `StringArray`: a string is kept, `nil` becomes the empty
string, anything else fails the conversion. -/
def stringElem : JVal → Option String
  | JVal.str s => some s
  | JVal.null => some ""
  | _ => none

/-- The conversion loop of `StringArray` over the elements of an array. -/
def stringElems : List JVal → Option (List String)
  | [] => some []
  | x :: xs =>
    match stringElem x, stringElems xs with
    | some s, some rest => some (s :: rest)
    | _, _ => none

/-- Modelled from the spec: `simplejson.Json.StringArray` is not among the
sources; it type-asserts the document to an array whose elements are strings
(`nil` elements read as the empty string). -/
def JVal.StringArray (j : JVal) : Option (List String) :=
  match j with
  | JVal.arr xs => stringElems xs
  | _ => none

/-- Modelled from the spec: `simplejson.Json.MustStringArray` is not among the
sources; the string array, or the `nil` default when the conversion fails. -/
def JVal.MustStringArray (j : JVal) : List String :=
  (j.StringArray).getD []

/-! ## CloudWatch request parser (package `tsdb/cloudwatch`) -/

/-- Go struct `backend.DataQuery` of the plugin SDK.  Times and durations are
integers (nanoseconds). -/
structure DataQuery where
  RefID : String
  QueryType : String
  MaxDataPoints : Int
  Interval : Int
  TimeRangeFrom : Int
  TimeRangeTo : Int
  JSON : RawJSON
  deriving Repr

/-- Go struct `cloudWatchQuery`, with the fields that `parseRequestQuery`
fills in.  `Dimensions` is a `map[string][]string`, held as its entries. -/
structure cloudWatchQuery where
  RefId : String
  Region : String
  Id : String
  Namespace : String
  MetricName : String
  Statistic : String
  Expression : String
  ReturnData : Bool
  Dimensions : List (String × List String)
  Period : Int
  Alias : String
  MatchExact : Bool
  UsedExpression : String
  DeepLink : String
  deriving Repr, DecidableEq

/-- Errors returned by the parser: a plain error, or the `queryError` of
types.go that carries the RefID of the offending query. -/
inductive ParseError where
  | plain (msg : String)
  | queryError (err : String) (RefID : String)
  deriving Repr, DecidableEq

/-- Functions of the Go standard library that `parseRequestQuery` calls and
whose definitions lie outside the repository. -/
structure GoLib where
  /-- `strings.ToLower` -/
  ToLower : String → String
  /-- `strconv.Atoi` -/
  Atoi : String → Except String Int
  /-- `time.ParseDuration`, giving nanoseconds -/
  ParseDuration : String → Except String Int
  /-- `int(d.Seconds())` of a duration in nanoseconds -/
  SecondsInt : Int → Int
  /-- `int(math.Ceil(endTime.Sub(startTime).Seconds() / 2000))`, by start and
  end time -/
  Datapoints : Int → Int → Int

/-- Body of the loop of `migrateLegacyQuery` for one query: decode the JSON;
when `statistic` is not a string, take the `statistics` string array, delete
`statistics`, set `statistic` to `stats[0]` (a panic on an empty slice) and
encode the model back into the query. -/
def migrateOne (q : DataQuery) : Res String DataQuery :=
  match NewJson q.JSON with
  | Except.error e => Res.error e
  | Except.ok model =>
    match (model.Get "statistic").String_ with
    | Except.ok _ => Res.ok q
    | Except.error _ =>
      let stats := (model.Get "statistics").MustStringArray
      let model1 := model.Del "statistics"
      match stats with
      | [] => Res.panic "runtime error: index out of range [0] with length 0"
      | s0 :: _ =>
        let model2 := model1.Set "statistic" (JVal.str s0)
        match model2.MarshalJSON with
        | Except.error e => Res.error e
        | Except.ok bytes => Res.ok { q with JSON := bytes }

/-- The loop of `migrateLegacyQuery`: `migratedQueries` grows by one query per
iteration; the first error or panic ends the call. -/
def migrateLoop : List DataQuery → List DataQuery → Res String (List DataQuery)
  | [], migratedQueries => Res.ok migratedQueries
  | q :: rest, migratedQueries =>
    match migrateOne q with
    | Res.ok query => migrateLoop rest (migratedQueries ++ [query])
    | Res.error e => Res.error e
    | Res.panic m => Res.panic m

/-- `migrateLegacyQuery` (request_parser.go). -/
def migrateLegacyQuery (queries : List DataQuery) (_startTime _endTime : Int) :
    Res String (List DataQuery) :=
  migrateLoop queries []

/-- Index `m[k]` of a `map[string][]string`: the zero value (`nil` slice) for a
missing key. -/
def index (m : List (String × List String)) (k : String) : List String :=
  (m.lookup k).getD []

/-- Inner loop of `parseDimensions` over the elements of an array value:
`parsedDimensions[k] = append(parsedDimensions[k], value.(string))`; the
unchecked type assertion panics on an element that is not a string. -/
def appendValues (k : String) :
    List JVal → List (String × List String) → Res String (List (String × List String))
  | [], parsed => Res.ok parsed
  | JVal.str value :: rest, parsed =>
    appendValues k rest (assign parsed k (index parsed k ++ [value]))
  | _ :: _, _ => Res.panic "interface conversion: interface {} is not string"

/-- Outer loop of `parseDimensions` over the entries of the `dimensions`
object, in the order the `range` loop visits them. -/
def parseDimensionsLoop :
    List (String × JVal) → List (String × List String) →
      Res String (List (String × List String))
  | [], parsed => Res.ok parsed
  | (k, JVal.str value) :: rest, parsed =>
    parseDimensionsLoop rest (assign parsed k [value])
  | (k, JVal.arr values) :: rest, parsed =>
    match appendValues k values parsed with
    | Res.ok parsed1 => parseDimensionsLoop rest parsed1
    | Res.error e => Res.error e
    | Res.panic m => Res.panic m
  | _ :: _, _ => Res.error "unknown type as dimension value"

/-- Go string order `a <= b` on the characters (code point order, which is
the byte order of UTF-8). -/
def charsLE : List Char → List Char → Bool
  | [], _ => true
  | _ :: _, [] => false
  | a :: as, b :: bs =>
    if a.toNat < b.toNat then true
    else if b.toNat < a.toNat then false
    else charsLE as bs

/-- Insertion of a key into a sorted list of keys. -/
def insertKey (k : String) : List String → List String
  | [] => [k]
  | x :: xs => if charsLE k.data x.data then k :: x :: xs else x :: insertKey k xs

/-- `sort.Strings`. -/
def sortStrings (keys : List String) : List String :=
  keys.foldr insertKey []

/-- `sortDimensions`: collect the keys, sort them, and copy the entries into a
new map in key order. -/
def sortDimensions (dimensions : List (String × List String)) :
    List (String × List String) :=
  let keys := dimensions.map (fun kv => kv.1)
  (sortStrings keys).foldl (fun sortedDimensions k =>
    assign sortedDimensions k (index dimensions k)) []

/-- `parseDimensions` (request_parser.go). -/
def parseDimensions (model : JVal) : Res String (List (String × List String)) :=
  match parseDimensionsLoop (model.Get "dimensions").MustMap [] with
  | Res.ok parsedDimensions => Res.ok (sortDimensions parsedDimensions)
  | Res.error e => Res.error e
  | Res.panic m => Res.panic m

/-- `reNumber.Match` for the pattern `^\d+$`: one or more ASCII digits and
nothing else. -/
def reNumberMatch (p : String) : Bool :=
  !p.data.isEmpty && p.data.all Char.isDigit

/-- The period computation of `parseRequestQuery`: for "auto" (in any case) or
an empty period the first of the fixed periods that is at least the number of
datapoints, else the last one; a string of digits is read by `Atoi`; any other
string is read as a duration and truncated to whole seconds. -/
def parsePeriod (lib : GoLib) (p : String) (startTime endTime : Int) :
    Except String Int :=
  if lib.ToLower p == "auto" || p == "" then
    let periods : List Int := [60, 300, 900, 3600, 21600, 86400]
    let datapoints := lib.Datapoints startTime endTime
    Except.ok ((periods.find? (fun value => decide (datapoints ≤ value))).getD 86400)
  else if reNumberMatch p then
    match lib.Atoi p with
    | Except.error err => Except.error ("failed to parse period as integer: " ++ err)
    | Except.ok period => Except.ok period
  else
    match lib.ParseDuration p with
    | Except.error err => Except.error ("failed to parse period as duration: " ++ err)
    | Except.ok d => Except.ok (lib.SecondsInt d)

/-- `parseRequestQuery` (request_parser.go). -/
def parseRequestQuery (lib : GoLib) (model : JVal) (refId : String)
    (startTime endTime : Int) : Res String cloudWatchQuery :=
  match (model.Get "region").String_ with
  | Except.error err => Res.error err
  | Except.ok region =>
    match (model.Get "namespace").String_ with
    | Except.error err => Res.error ("failed to get namespace: " ++ err)
    | Except.ok namespace_ =>
      match (model.Get "metricName").String_ with
      | Except.error err => Res.error ("failed to get metricName: " ++ err)
      | Except.ok metricName =>
        match parseDimensions model with
        | Res.panic m => Res.panic m
        | Res.error err => Res.error ("failed to parse dimensions: " ++ err)
        | Res.ok dimensions =>
          let statistic :=
            match (model.Get "statistic").String_ with
            | Except.ok st => st
            | Except.error _ => ""
          let p := (model.Get "period").MustString ""
          match parsePeriod lib p startTime endTime with
          | Except.error err => Res.error err
          | Except.ok period =>
            let id0 := (model.Get "id").MustString ""
            let id := if id0 == "" then lib.ToLower refId else id0
            let expression := (model.Get "expression").MustString ""
            let alias_ := (model.Get "alias").MustString ""
            let returnData0 := !(model.Get "hide").MustBool false
            let queryType := (model.Get "type").MustString ""
            let returnData := if queryType == "" then true else returnData0
            let matchExact := (model.Get "matchExact").MustBool true
            Res.ok
              { RefId := refId
                Region := region
                Id := id
                Namespace := namespace_
                MetricName := metricName
                Statistic := statistic
                Expression := expression
                ReturnData := returnData
                Dimensions := dimensions
                Period := period
                Alias := alias_
                MatchExact := matchExact
                UsedExpression := ""
                DeepLink := "" }

/-- The result of `parseQueries`, a `map[string]map[string]*cloudWatchQuery`
from region to id to query, held as its entries. -/
abbrev RequestQueries := List (String × List (String × cloudWatchQuery))

/-- Condition of the `continue` in `parseQueries`: the query type is neither
"timeSeriesQuery" nor empty. -/
def skipsQuery (model : JVal) : Bool :=
  let queryType := (model.Get "type").MustString ""
  queryType != "timeSeriesQuery" && queryType != ""

/-- The statement `requestQueries[query.Region][query.Id] = query`, preceded
by the creation of the inner map when the region is new. -/
def storeQuery (requestQueries : RequestQueries) (query : cloudWatchQuery) :
    RequestQueries :=
  let requestQueries1 :=
    if (requestQueries.lookup query.Region).isSome then requestQueries
    else assign requestQueries query.Region []
  let inner := (requestQueries1.lookup query.Region).getD []
  assign requestQueries1 query.Region (assign inner query.Id query)

/-- The loop of `parseQueries` over the migrated queries. -/
def parseQueriesLoop (lib : GoLib) (startTime endTime : Int) :
    List DataQuery → RequestQueries → Res ParseError RequestQueries
  | [], requestQueries => Res.ok requestQueries
  | query :: rest, requestQueries =>
    match NewJson query.JSON with
    | Except.error err => Res.error (ParseError.queryError err query.RefID)
    | Except.ok model =>
      if skipsQuery model then
        parseQueriesLoop lib startTime endTime rest requestQueries
      else
        let refID := query.RefID
        match parseRequestQuery lib model refID startTime endTime with
        | Res.panic m => Res.panic m
        | Res.error err => Res.error (ParseError.queryError err refID)
        | Res.ok parsed =>
          parseQueriesLoop lib startTime endTime rest (storeQuery requestQueries parsed)

/-- `cloudWatchExecutor.parseQueries` (request_parser.go). -/
def parseQueries (lib : GoLib) (queries : List DataQuery) (startTime endTime : Int) :
    Res ParseError RequestQueries :=
  match migrateLegacyQuery queries startTime endTime with
  | Res.panic m => Res.panic m
  | Res.error err => Res.error (ParseError.plain err)
  | Res.ok migratesQueries => parseQueriesLoop lib startTime endTime migratesQueries []

/-- Number of `cloudWatchQuery` entries over all regions. -/
def countEntries (requestQueries : RequestQueries) : Nat :=
  (requestQueries.map (fun r => r.2.length)).sum

/-- An input query is a metric query when its JSON decodes and its type is
"timeSeriesQuery" or empty. -/
def isMetricQuery (q : DataQuery) : Bool :=
  match NewJson q.JSON with
  | Except.error _ => false
  | Except.ok model => !skipsQuery model

/-! ## WeChat notifier (package `alerting/notifiers`) -/

/-- Go struct `alerting.ValidationError`, of which the constructor sets
`Reason`. -/
structure ValidationError where
  Reason : String
  deriving DecidableEq, Repr

/-- Go struct `models.AlertNotification`; the constructor reads `Settings`, a
`*simplejson.Json`.  `Name` and `Type_` (Go `Type`) stand for the fields that only
`NewNotifierBase` reads. -/
structure AlertNotification where
  Name : String
  Type_ : String
  Settings : JVal
  deriving Repr

/-- Go struct `WeChatNotifier`.  `Base` is the type `NotifierBase`, declared
outside the sources; `log` is the logger, held as its name. -/
structure WeChatNotifier (Base : Type) where
  NotifierBase : Base
  AgentId : String
  CorpId : String
  Secret : String
  ToUser : String
  log : String

/-- An HTTP request as `http.NewRequest` and `Header.Add` build it. -/
structure HttpRequest where
  Method : String
  Url : String
  Header : List (String × String)
  deriving DecidableEq, Repr

/-- The fields of an `http.Response` that the notifier reads. -/
structure HttpResponse where
  StatusCode : Int
  Status : String
  Body : String
  deriving DecidableEq, Repr

/-- Go struct `WeChatToken`. -/
structure WeChatToken where
  AccessToken : String
  ErrMsg : String
  ErrCode : Int
  ExpireIn : Int
  deriving DecidableEq, Repr

/-- Functions of the Go libraries that `GetAccessToken` calls: building a
request without body (`http.NewRequest`), sending it over the network
(`ctxhttp.Do`) and decoding the response body (`json.Decoder.Decode`). -/
structure HttpLib where
  NewRequest : String → String → Except String HttpRequest
  Do : HttpRequest → Except String HttpResponse
  DecodeToken : String → Except String WeChatToken

/-- The constant `GET_TOKEN_ENDPOINT`. -/
def GET_TOKEN_ENDPOINT : String := "https://qyapi.weixin.qq.com/cgi-bin/gettoken"

/-- `NewWeChatNotifier` (wechat.go).  The four settings are read with
`MustString` and checked in the order agentid, corpid, secret, touser.
`NewNotifierBase` is declared outside the sources and is a parameter.  The
last argument is the list of network requests sent so far; the function
returns it as the list of requests sent when it ends. -/
def NewWeChatNotifier {Base : Type} (NewNotifierBase : AlertNotification → Base)
    (model : AlertNotification) (sent : List HttpRequest) :
    Except ValidationError (WeChatNotifier Base) × List HttpRequest :=
  let agentid := (model.Settings.Get "agentid").MustString ""
  if agentid == "" then
    (Except.error { Reason := "Could not find agentid property in settings" }, sent)
  else
    let corpid := (model.Settings.Get "corpid").MustString ""
    if corpid == "" then
      (Except.error { Reason := "Could not find corpid property in settings" }, sent)
    else
      let secret := (model.Settings.Get "secret").MustString ""
      if secret == "" then
        (Except.error { Reason := "Could not find secret property in settings" }, sent)
      else
        let touser := (model.Settings.Get "touser").MustString ""
        if touser == "" then
          (Except.error { Reason := "Could not find touser property in settings" }, sent)
        else
          (Except.ok
            { NotifierBase := NewNotifierBase model
              AgentId := agentid
              CorpId := corpid
              Secret := secret
              ToUser := touser
              log := "alerting.notifier.wechat" }, sent)

/-- `WeChatNotifier.GetAccessToken` (wechat.go): build the token request, send
it, and read the token from the response.  Returns the Go pair (token, error)
and the list of network requests sent, which grows by the request passed to
`Do`. -/
def WeChatNotifier.GetAccessToken {Base : Type} (lib : HttpLib) (this : WeChatNotifier Base)
    (sent : List HttpRequest) : (String × Option String) × List HttpRequest :=
  let token := ""
  let url := GET_TOKEN_ENDPOINT ++ "?corpid=" ++ this.CorpId ++ "&corpsecret=" ++ this.Secret
  match lib.NewRequest "POST" url with
  | Except.error err => ((token, some err), sent)
  | Except.ok request0 =>
    let request : HttpRequest :=
      { request0 with
        Header := request0.Header ++
          [("Content-Type", "application/json"), ("User-Agent", "Grafana")] }
    let sent1 := sent ++ [request]
    match lib.Do request with
    | Except.error err => ((token, some err), sent1)
    | Except.ok resp =>
      if Int.tdiv resp.StatusCode 100 != 2 then
        ((token, some ("WeChat returned statuscode invalid status code: " ++ resp.Status)),
          sent1)
      else
        match lib.DecodeToken resp.Body with
        | Except.error err => ((token, some err), sent1)
        | Except.ok wechatToken =>
          if wechatToken.ErrCode != 0 then
            ((token, some ("WeChat returned errmsg: " ++ wechatToken.ErrMsg)), sent1)
          else ((wechatToken.AccessToken, none), sent1)

/-- The property `key` of the settings is a non-empty string. -/
def NonEmptyStringProperty (settings : JVal) (key : String) : Prop :=
  ∃ kvs s, settings = JVal.obj kvs ∧ kvs.lookup key = some (JVal.str s) ∧ s ≠ ""

/-- The `Reason` for a missing property. -/
def missingReason (key : String) : String :=
  "Could not find " ++ key ++ " property in settings"

/-- A notification whose settings hold the four required properties. -/
def wechatModel : AlertNotification :=
  { Name := "ops", Type_ := "wechat",
    Settings := JVal.obj
      [ ("corpid", JVal.str "ww1"), ("agentid", JVal.str "1000002"),
        ("secret", JVal.str "s3cr3t"), ("touser", JVal.str "@all") ] }

/-- A notification whose settings lack `corpid` and hold a number under
`secret`. -/
def wechatModelNoCorpid : AlertNotification :=
  { Name := "ops", Type_ := "wechat",
    Settings := JVal.obj
      [ ("agentid", JVal.str "1000002"), ("secret", JVal.num "5"),
        ("touser", JVal.str "@all") ] }

/-- The notifier that `NewWeChatNotifier` builds from `wechatModel` when the
base of a notification is its name. -/
def wechatNotifier : WeChatNotifier String :=
  { NotifierBase := "ops", AgentId := "1000002", CorpId := "ww1", Secret := "s3cr3t",
    ToUser := "@all", log := "alerting.notifier.wechat" }

/-! ## Concrete data for evaluating the parser -/

/-- Value of a string of decimal digits. -/
def digitsValue (cs : List Char) : Nat :=
  cs.foldl (fun acc c => 10 * acc + (c.toNat - 48)) 0

/-- Duration in nanoseconds of a decimal number followed by one of the units
`s`, `m`, `h`. -/
def simpleDuration (cs : List Char) : Except String Int :=
  match cs.reverse with
  | u :: revDigits =>
    let digits := revDigits.reverse
    if !digits.isEmpty && digits.all Char.isDigit then
      if u = 's' then Except.ok ((digitsValue digits : Int) * 1000000000)
      else if u = 'm' then Except.ok ((digitsValue digits : Int) * 60000000000)
      else if u = 'h' then Except.ok ((digitsValue digits : Int) * 3600000000000)
      else Except.error "time: unknown unit in duration"
    else Except.error "time: invalid duration"
  | [] => Except.error "time: invalid duration"

/-- An instance of the library functions for evaluating the parser on
concrete queries.  It is exact on ASCII strings, on decimal periods within
the range of `int` and on durations written as a decimal number of seconds,
minutes or hours; it rejects every other duration string. -/
def asciiLib : GoLib where
  ToLower := fun s => String.mk (s.data.map Char.toLower)
  Atoi := fun s =>
    if digitsValue s.data < 2 ^ 63 then Except.ok (digitsValue s.data : Int)
    else Except.error "value out of range"
  ParseDuration := fun s => simpleDuration s.data
  SecondsInt := fun d => Int.tdiv d 1000000000
  Datapoints := fun startTime endTime =>
    -((startTime - endTime) / 2000000000000)

/-- A query of the plugin SDK with the given RefID and JSON document. -/
def mkQuery (refID : String) (doc : JVal) : DataQuery :=
  { RefID := refID, QueryType := "", MaxDataPoints := 0, Interval := 0,
    TimeRangeFrom := 0, TimeRangeTo := 0, JSON := RawJSON.doc doc }

/-- A query whose JSON is the empty object: it has neither `statistic` nor
`statistics`. -/
def emptyQuery : DataQuery := mkQuery "A" (JVal.obj [])

/-- Metric query "A" of region us-east-1 with the explicit id m1. -/
def queryA : DataQuery :=
  mkQuery "A" (JVal.obj
    [ ("region", JVal.str "us-east-1"), ("namespace", JVal.str "AWS/EC2"),
      ("metricName", JVal.str "CPUUtilization"), ("statistic", JVal.str "Average"),
      ("id", JVal.str "m1") ])

/-- Metric query "B" of the same region with the same explicit id m1. -/
def queryB : DataQuery :=
  mkQuery "B" (JVal.obj
    [ ("region", JVal.str "us-east-1"), ("namespace", JVal.str "AWS/EC2"),
      ("metricName", JVal.str "NetworkIn"), ("statistic", JVal.str "Sum"),
      ("id", JVal.str "m1") ])

/-- The `cloudWatchQuery` that `parseRequestQuery` builds from `queryB` over
a time range of one hour. -/
def parsedB : cloudWatchQuery :=
  { RefId := "B", Region := "us-east-1", Id := "m1", Namespace := "AWS/EC2",
    MetricName := "NetworkIn", Statistic := "Sum", Expression := "",
    ReturnData := true, Dimensions := [], Period := 60, Alias := "",
    MatchExact := true, UsedExpression := "", DeepLink := "" }

/-- A query model of type "timeSeriesQuery" with `hide` set. -/
def hiddenModel : JVal :=
  JVal.obj
    [ ("region", JVal.str "eu-west-1"), ("namespace", JVal.str "AWS/EC2"),
      ("metricName", JVal.str "CPUUtilization"), ("statistic", JVal.str "Average"),
      ("type", JVal.str "timeSeriesQuery"), ("hide", JVal.bool true),
      ("period", JVal.str "300") ]

/-- The `cloudWatchQuery` that `parseRequestQuery` builds from `hiddenModel`
for RefID "C". -/
def hiddenParsed : cloudWatchQuery :=
  { RefId := "C", Region := "eu-west-1", Id := "c", Namespace := "AWS/EC2",
    MetricName := "CPUUtilization", Statistic := "Average", Expression := "",
    ReturnData := false, Dimensions := [], Period := 300, Alias := "",
    MatchExact := true, UsedExpression := "", DeepLink := "" }

/-- A query model whose `type` field is the number 5, not a string, with
`hide` set. -/
def numericTypeModel : JVal :=
  JVal.obj
    [ ("region", JVal.str "eu-west-1"), ("namespace", JVal.str "AWS/EC2"),
      ("metricName", JVal.str "CPUUtilization"), ("statistic", JVal.str "Average"),
      ("type", JVal.num "5"), ("hide", JVal.bool true) ]

/-- The `cloudWatchQuery` that `parseRequestQuery` builds from
`numericTypeModel` for RefID "D". -/
def numericTypeParsed : cloudWatchQuery :=
  { RefId := "D", Region := "eu-west-1", Id := "d", Namespace := "AWS/EC2",
    MetricName := "CPUUtilization", Statistic := "Average", Expression := "",
    ReturnData := true, Dimensions := [], Period := 60, Alias := "",
    MatchExact := true, UsedExpression := "", DeepLink := "" }

/-- A model whose `dimensions` object holds an array with a number, visited
first, and a number, visited second. -/
def mixedDimensions : JVal :=
  JVal.obj [ ("dimensions",
    JVal.obj [ ("a", JVal.arr [JVal.num "5"]), ("b", JVal.num "7") ]) ]

/-- The same `dimensions` object visited in the other order. -/
def mixedDimensionsSwapped : JVal :=
  JVal.obj [ ("dimensions",
    JVal.obj [ ("b", JVal.num "7"), ("a", JVal.arr [JVal.num "5"]) ]) ]

/-! ## Specification predicates for the request parser -/

/-- The query already has a string-valued `statistic` field. -/
def HasStatistic (q : DataQuery) : Prop :=
  ∃ kvs s, q.JSON = RawJSON.doc (JVal.obj kvs) ∧ kvs.lookup "statistic" = some (JVal.str s)

/-- The query is in the legacy format: its JSON is the object `kvs`, which has
no string-valued `statistic` field and whose `statistics` field is the
non-empty string array `s0 :: rest`. -/
def IsLegacy (q : DataQuery) (kvs : List (String × JVal)) (s0 : String)
    (rest : List String) : Prop :=
  q.JSON = RawJSON.doc (JVal.obj kvs) ∧
  (∀ s, kvs.lookup "statistic" ≠ some (JVal.str s)) ∧
  kvs.lookup "statistics" = some (JVal.arr ((s0 :: rest).map JVal.str))

/-- What `migrateLegacyQuery` does to one query `q`, giving `q'`. -/
def MigratedFrom (q q' : DataQuery) : Prop :=
  q'.RefID = q.RefID ∧
  (HasStatistic q → q' = q) ∧
  (∀ kvs s0 rest, IsLegacy q kvs s0 rest →
    ∃ kvs', q' = { q with JSON := RawJSON.doc (JVal.obj kvs') } ∧
      kvs'.lookup "statistic" = some (JVal.str s0) ∧
      kvs'.lookup "statistics" = none ∧
      ∀ k, k ≠ "statistic" → k ≠ "statistics" → kvs'.lookup k = kvs.lookup k)

/-- Replace the string values of the selected keys by one-element arrays. -/
def stringsAsArrays (sel : String → Bool) (es : List (String × JVal)) :
    List (String × JVal) :=
  es.map (fun kv =>
    match kv with
    | (k, JVal.str v) => if sel k then (k, JVal.arr [JVal.str v]) else (k, JVal.str v)
    | other => other)

/-- The value is neither a string nor an array. -/
def unknownType : JVal → Bool
  | JVal.str _ => false
  | JVal.arr _ => false
  | _ => true

/-- The entry stored under a region and an id, if any. -/
def entryAt (m : RequestQueries) (region id : String) : Option cloudWatchQuery :=
  ((m.lookup region).getD []).lookup id

/-- The `cloudWatchQuery` that the loop of `parseQueries` builds from one
query: decode its JSON and parse the model under its RefID. -/
def parsedOf (lib : GoLib) (startTime endTime : Int) (q : DataQuery) :
    Option cloudWatchQuery :=
  match NewJson q.JSON with
  | Except.error _ => none
  | Except.ok model =>
    match parseRequestQuery lib model q.RefID startTime endTime with
    | Res.ok p => some p
    | _ => none

/-! # Theorems -/

/-! ## Aggregate status of receiver tests -/

/-- The running maximum never drops below its start value. -/
theorem foldl_rank_ge_acc (cs : List TestReceiverConfigResult) (acc : Nat) :
    acc ≤ cs.foldl (fun a c => max a (errorRank c.Error)) acc := by
  induction cs generalizing acc with
  | nil => simp
  | cons c cs ih =>
    simp only [List.foldl_cons]
    exact le_trans (le_max_left _ _) (ih _)

/-- The running maximum dominates the rank of every member. -/
theorem foldl_rank_ge_mem (cs : List TestReceiverConfigResult) (acc : Nat)
    (c : TestReceiverConfigResult) (hc : c ∈ cs) :
    errorRank c.Error ≤ cs.foldl (fun a c => max a (errorRank c.Error)) acc := by
  induction cs generalizing acc with
  | nil => simp at hc
  | cons d ds ih =>
    simp only [List.foldl_cons]
    rcases List.mem_cons.mp hc with h | h
    · subst h
      exact le_trans (le_max_right _ _) (foldl_rank_ge_acc ds _)
    · exact ih _ h

/-- A common bound on the start value and on every member bounds the running
maximum. -/
theorem foldl_rank_le (cs : List TestReceiverConfigResult) (acc b : Nat)
    (hacc : acc ≤ b) (h : ∀ c ∈ cs, errorRank c.Error ≤ b) :
    cs.foldl (fun a c => max a (errorRank c.Error)) acc ≤ b := by
  induction cs generalizing acc with
  | nil => simpa using hacc
  | cons d ds ih =>
    simp only [List.foldl_cons]
    apply ih
    · exact max_le hacc (h d (List.mem_cons_self _ _))
    · intro c hc
      exact h c (List.mem_cons_of_mem _ hc)

/-- No rank exceeds 3. -/
theorem errorRank_le_three (e : Option ReceiverError) : errorRank e ≤ 3 := by
  rcases e with _ | e
  · simp [errorRank]
  · cases e <;> simp [errorRank]

/-- Membership in the flattened config list. -/
theorem mem_allConfigs (v : List TestReceiverResult) (c : TestReceiverConfigResult) :
    c ∈ allConfigs v ↔ ∃ r ∈ v, c ∈ r.Configs := by
  simp [allConfigs, List.mem_flatMap]

/-- C1: whenever at least one config result of the request carries an
`InvalidReceiverError`, wherever it stands and whatever the other results
are, `statusForTestReceivers` returns 400, and so never 408. -/
theorem statusForTestReceivers_invalid (v : List TestReceiverResult)
    (h : ∃ r ∈ v, ∃ c ∈ r.Configs, ∃ msg,
      c.Error = some (ReceiverError.InvalidReceiverError msg)) :
    statusForTestReceivers v = 400 ∧ statusForTestReceivers v ≠ 408 := by
  obtain ⟨r, hr, c, hc, msg, he⟩ := h
  have hmem : c ∈ allConfigs v := (mem_allConfigs v c).mpr ⟨r, hr, hc⟩
  have hge : 3 ≤ aggregateRank v := by
    have := foldl_rank_ge_mem (allConfigs v) 0 c hmem
    simpa [aggregateRank, he, errorRank] using this
  have hle : aggregateRank v ≤ 3 :=
    foldl_rank_le (allConfigs v) 0 3 (by decide) (fun c _ => errorRank_le_three c.Error)
  have heq : aggregateRank v = 3 := le_antisymm hle hge
  simp [statusForTestReceivers, heq]

/-- C1 at the request of `TestStatusForTestReceivers`: one invalid receiver
and one timed-out receiver give 400. -/
theorem statusForTestReceivers_invalid_witness :
    (∃ r ∈ testRequest, ∃ c ∈ r.Configs, ∃ msg,
      c.Error = some (ReceiverError.InvalidReceiverError msg)) ∧
    statusForTestReceivers testRequest = 400 ∧
    statusForTestReceivers testRequest ≠ 408 :=
  have h : ∃ r ∈ testRequest, ∃ c ∈ r.Configs, ∃ msg,
      c.Error = some (ReceiverError.InvalidReceiverError msg) :=
    ⟨_, List.mem_cons_self _ _, _, List.mem_cons_self _ _, "", rfl⟩
  ⟨h, statusForTestReceivers_invalid testRequest h⟩

/-- C2: whenever no config result carries an `InvalidReceiverError` and at
least one carries a `ReceiverTimeoutError`, `statusForTestReceivers` returns
408. -/
theorem statusForTestReceivers_timeout (v : List TestReceiverResult)
    (hno : ∀ r ∈ v, ∀ c ∈ r.Configs, ∀ msg,
      c.Error ≠ some (ReceiverError.InvalidReceiverError msg))
    (h : ∃ r ∈ v, ∃ c ∈ r.Configs, ∃ msg,
      c.Error = some (ReceiverError.ReceiverTimeoutError msg)) :
    statusForTestReceivers v = 408 := by
  obtain ⟨r, hr, c, hc, msg, he⟩ := h
  have hmem : c ∈ allConfigs v := (mem_allConfigs v c).mpr ⟨r, hr, hc⟩
  have hge : 2 ≤ aggregateRank v := by
    have := foldl_rank_ge_mem (allConfigs v) 0 c hmem
    simpa [aggregateRank, he, errorRank] using this
  have hle : aggregateRank v ≤ 2 := by
    apply foldl_rank_le (allConfigs v) 0 2 (by decide)
    intro d hd
    obtain ⟨r', hr', hd'⟩ := (mem_allConfigs v d).mp hd
    have hn := hno r' hr' d hd'
    rcases hdE : d.Error with _ | e
    · simp [errorRank]
    · cases e with
      | InvalidReceiverError m => exact absurd hdE (hn m)
      | ReceiverTimeoutError m => simp [errorRank]
      | DeliveryFailure m => simp [errorRank]
      | Unknown m => simp [errorRank]
  have heq : aggregateRank v = 2 := le_antisymm hle hge
  simp [statusForTestReceivers, heq]

/-- C2 at a request with an ok config and a timed-out config: 408. -/
theorem statusForTestReceivers_timeout_witness :
    statusForTestReceivers timeoutRequest = 408 :=
  statusForTestReceivers_timeout timeoutRequest
    (by
      intro r hr c hc msg
      simp [timeoutRequest] at hr
      rcases hr with rfl | rfl
      · simp at hc
      · simp at hc
        rcases hc with rfl | rfl <;> simp)
    ⟨_, List.mem_cons_of_mem _ (List.mem_cons_self _ _), _,
      List.mem_cons_of_mem _ (List.mem_cons_self _ _), "deadline", rfl⟩

/-- C3: whenever every config result is ok (carries no error),
`statusForTestReceivers` returns 200; the empty request and requests whose
receivers all have zero configs are instances. -/
theorem statusForTestReceivers_ok (v : List TestReceiverResult)
    (h : ∀ r ∈ v, ∀ c ∈ r.Configs, c.Error = none) :
    statusForTestReceivers v = 200 := by
  have hle : aggregateRank v ≤ 0 := by
    apply foldl_rank_le (allConfigs v) 0 0 (le_refl 0)
    intro d hd
    obtain ⟨r, hr, hd'⟩ := (mem_allConfigs v d).mp hd
    simp [h r hr d hd', errorRank]
  have heq : aggregateRank v = 0 := Nat.le_zero.mp hle
  simp [statusForTestReceivers, heq]

/-- C3 at the empty request, at a request whose receivers have no configs,
and at a request with two ok configs: 200 each time. -/
theorem statusForTestReceivers_ok_witness :
    statusForTestReceivers [] = 200 ∧
    statusForTestReceivers
      [ { Name := "a", Configs := [] }, { Name := "b", Configs := [] } ] = 200 ∧
    statusForTestReceivers
      [ { Name := "a",
          Configs := [ { Name := "c1", UID := "u1", Status := "ok", Error := none },
                       { Name := "c2", UID := "u2", Status := "ok", Error := none } ] } ]
      = 200 :=
  ⟨statusForTestReceivers_ok [] (by simp),
   statusForTestReceivers_ok _ (by
     intro r hr c hc
     simp at hr
     rcases hr with rfl | rfl <;> simp at hc),
   statusForTestReceivers_ok _ (by
     intro r hr c hc
     simp at hr
     subst hr
     simp at hc
     rcases hc with rfl | rfl <;> rfl)⟩

/-! ## Alertmanager status -/

/-- C4: in every state of the Alertmanager in which no reload holds the lock,
`GetStatus` returns the `NewGettableStatus` projection of the stored
`AlertmanagerConfig` and leaves the state, so the stored configuration, as it
was; and in every state, whenever `GetStatus` returns, it has returned that
projection, the state is unchanged, and a second call with no reload in
between returns the same value.  (While a reload holds the lock the call
waits.) -/
theorem GetStatus_projection {Cfg Status : Type} (NewGettableStatus : Cfg → Status)
    (am : Alertmanager Cfg) :
    (am.reloadConfigMtx.writer = false →
      GetStatus NewGettableStatus am
        = some (NewGettableStatus am.config.AlertmanagerConfig, am)) ∧
    (∀ status am1, GetStatus NewGettableStatus am = some (status, am1) →
      status = NewGettableStatus am.config.AlertmanagerConfig ∧ am1 = am ∧
      GetStatus NewGettableStatus am1 = some (status, am1)) := by
  have h1 : am.reloadConfigMtx.writer = false →
      GetStatus NewGettableStatus am
        = some (NewGettableStatus am.config.AlertmanagerConfig, am) := by
    intro h
    obtain ⟨⟨readers, writer⟩, config⟩ := am
    simp only at h
    subst h
    simp [GetStatus, RWMutex.RLock, RWMutex.RUnlock]
  refine ⟨h1, ?_⟩
  intro status am1 h
  have hw : am.reloadConfigMtx.writer = false := by
    cases hwr : am.reloadConfigMtx.writer with
    | false => rfl
    | true => simp [GetStatus, RWMutex.RLock, hwr] at h
  have h2 := h1 hw
  rw [h2] at h
  injection h with h
  injection h with hs ha
  subst hs
  subst ha
  exact ⟨rfl, rfl, h2⟩

/-- C4 at a concrete state holding the number 21, with doubling as the
projection: the call returns 42 and the same state, and so does the next
call. -/
theorem GetStatus_projection_witness :
    GetStatus (fun n : Nat => 2 * n) sampleAlertmanager = some (42, sampleAlertmanager) ∧
    (42 = 2 * sampleAlertmanager.config.AlertmanagerConfig ∧
      sampleAlertmanager = sampleAlertmanager ∧
      GetStatus (fun n : Nat => 2 * n) sampleAlertmanager
        = some (42, sampleAlertmanager)) :=
  ⟨(GetStatus_projection (fun n : Nat => 2 * n) sampleAlertmanager).1 rfl,
   (GetStatus_projection (fun n : Nat => 2 * n) sampleAlertmanager).2
      42 sampleAlertmanager rfl⟩

/-! ## Namespaced key/value store -/

/-- C6: the wrapper `kv.WithNamespace orgId namespace` behaves as `kv` with
those two arguments fixed: its `Get` returns the value, error and state of
`kv.Get` at (orgId, namespace, key), its `Set` those of `kv.Set`, and these
are the backend's `Get` and `Set`. -/
theorem WithNamespace_refines {σ Ctx Err : Type} (kv : KVStore σ Ctx Err)
    (orgId : Int) (namespace_ key value : String) (ctx : Ctx) (s : σ) :
    (kv.WithNamespace orgId namespace_).Get ctx key s
        = kv.Get ctx orgId namespace_ key s ∧
    kv.Get ctx orgId namespace_ key s = kv.backend.Get ctx orgId namespace_ key s ∧
    (kv.WithNamespace orgId namespace_).Set ctx key value s
        = kv.Set ctx orgId namespace_ key value s ∧
    kv.Set ctx orgId namespace_ key value s
        = kv.backend.Set ctx orgId namespace_ key value s :=
  ⟨rfl, rfl, rfl, rfl⟩

/-! ## CloudWatch request parser -/

/-! ### Association lists -/

theorem lookup_assign {β : Type} (kvs : List (String × β)) (key k : String) (val : β) :
    (assign kvs key val).lookup k = if k = key then some val else kvs.lookup k := by
  induction kvs with
  | nil =>
    by_cases h : k = key
    · simp [assign, List.lookup, h]
    · have hb : (k == key) = false := by simpa using h
      simp [assign, List.lookup, h, hb]
  | cons kv rest ih =>
    obtain ⟨k0, v0⟩ := kv
    by_cases h0 : k0 = key
    · subst h0
      by_cases h : k = k0
      · simp [assign, List.lookup, h]
      · have hb : (k == k0) = false := by simpa using h
        simp [assign, List.lookup, h, hb]
    · have hb0 : (k0 == key) = false := by simpa using h0
      by_cases h1 : k = k0
      · subst h1
        simp [assign, List.lookup, h0, hb0]
      · have hb1 : (k == k0) = false := by simpa using h1
        simp [assign, List.lookup, hb0, hb1, ih]

theorem lookup_filter_ne {β : Type} (kvs : List (String × β)) (key k : String) :
    (kvs.filter (fun kv => !(kv.1 == key))).lookup k
      = if k = key then none else kvs.lookup k := by
  induction kvs with
  | nil => simp [List.lookup]
  | cons kv rest ih =>
    obtain ⟨k0, v0⟩ := kv
    by_cases h0 : k0 = key
    · subst h0
      by_cases h : k = k0
      · subst h
        have := ih
        simp only [if_true] at this
        simpa [List.filter_cons] using this
      · have hb : (k == k0) = false := by simpa using h
        simp [List.filter_cons, List.lookup, h, hb, ih]
    · have hb0 : (k0 == key) = false := by simpa using h0
      by_cases h1 : k = k0
      · subst h1
        simp [List.filter_cons, List.lookup, h0, hb0]
      · have hb1 : (k == k0) = false := by simpa using h1
        simp [List.filter_cons, List.lookup, hb0, hb1, ih]

theorem stringElems_strs (ss : List String) :
    stringElems (ss.map JVal.str) = some ss := by
  induction ss with
  | nil => rfl
  | cons s rest ih => simp [stringElems, stringElem, ih]

theorem foldl_assign_lookup (f : String → List String) (ks : List String) :
    ∀ (init : List (String × List String)) (k : String),
      (ks.foldl (fun m k1 => assign m k1 (f k1)) init).lookup k
        = if k ∈ ks then some (f k) else init.lookup k := by
  induction ks with
  | nil => intro init k; simp
  | cons k0 rest ih =>
    intro init k
    simp only [List.foldl_cons, ih, lookup_assign, List.mem_cons]
    by_cases h1 : k ∈ rest
    · simp [h1]
    · by_cases h0 : k = k0
      · subst h0; simp [h1]
      · simp [h1, h0]

theorem mem_insertKey (k x : String) (xs : List String) :
    x ∈ insertKey k xs ↔ x = k ∨ x ∈ xs := by
  induction xs with
  | nil => simp [insertKey]
  | cons y ys ih =>
    simp only [insertKey]
    split
    · simp
    · simp only [List.mem_cons, ih]
      tauto

theorem mem_sortStrings (x : String) (keys : List String) :
    x ∈ sortStrings keys ↔ x ∈ keys := by
  induction keys with
  | nil => simp [sortStrings]
  | cons k ks ih =>
    have : sortStrings (k :: ks) = insertKey k (sortStrings ks) := rfl
    rw [this, mem_insertKey, ih]
    simp

theorem lookup_none_iff {β : Type} (d : List (String × β)) (k : String) :
    d.lookup k = none ↔ k ∉ d.map (fun kv => kv.1) := by
  induction d with
  | nil => simp
  | cons kv rest ih =>
    obtain ⟨k0, v0⟩ := kv
    by_cases h : k = k0
    · subst h; simp [List.lookup]
    · have hb : (k == k0) = false := by simpa using h
      simp [List.lookup, hb, ih, h]

theorem sortDimensions_lookup (d : List (String × List String)) (k : String) :
    (sortDimensions d).lookup k = d.lookup k := by
  simp only [sortDimensions, foldl_assign_lookup, mem_sortStrings]
  by_cases h : k ∈ d.map (fun kv => kv.1)
  · simp only [h, if_true]
    rcases hl : d.lookup k with _ | v
    · exact absurd h ((lookup_none_iff d k).mp hl)
    · simp [index, hl]
  · simp only [h, if_false, List.lookup_nil]
    exact ((lookup_none_iff d k).mpr h).symm

/-! ### `migrateLegacyQuery` on queries that have `statistic` or `statistics` -/

theorem migrateOne_hasStatistic (q : DataQuery) (h : HasStatistic q) :
    migrateOne q = Res.ok q := by
  obtain ⟨kvs, s, hj, hs⟩ := h
  simp [migrateOne, hj, NewJson, JVal.Get, hs, JVal.String_]

theorem migrateOne_legacy (q : DataQuery) (kvs : List (String × JVal)) (s0 : String)
    (rest : List String) (h : IsLegacy q kvs s0 rest) :
    migrateOne q = Res.ok { q with JSON := RawJSON.doc (JVal.obj
      (assign (kvs.filter (fun kv => !(kv.1 == "statistics"))) "statistic" (JVal.str s0))) } := by
  obtain ⟨hj, hno, hst⟩ := h
  have hS : ((JVal.obj kvs).Get "statistic").String_
      = Except.error "type assertion to string failed" := by
    rcases hl : kvs.lookup "statistic" with _ | v
    · simp [JVal.Get, hl, JVal.String_]
    · cases v with
      | str s => exact absurd hl (hno s)
      | _ => simp [JVal.Get, hl, JVal.String_]
  have hA : ((JVal.obj kvs).Get "statistics").MustStringArray = s0 :: rest := by
    simp only [JVal.Get, hst, Option.getD_some, JVal.MustStringArray, JVal.StringArray]
    rw [stringElems_strs]
    rfl
  simp only [migrateOne, hj, NewJson, hS, hA, JVal.Del, JVal.Set, JVal.MarshalJSON]

theorem migratedFrom_of_migrateOne (q q' : DataQuery)
    (hgood : HasStatistic q ∨ ∃ kvs s0 rest, IsLegacy q kvs s0 rest)
    (h : migrateOne q = Res.ok q') : MigratedFrom q q' := by
  have inj : ∀ a b : DataQuery, (Res.ok a : Res String DataQuery) = Res.ok b → a = b := by
    intro a b e; injection e
  refine ⟨?_, ?_, ?_⟩
  · rcases hgood with hs | ⟨kvs, s0, rest, hl⟩
    · rw [migrateOne_hasStatistic q hs] at h
      rw [← inj _ _ h]
    · rw [migrateOne_legacy q kvs s0 rest hl] at h
      rw [← inj _ _ h]
  · intro hs
    rw [migrateOne_hasStatistic q hs] at h
    exact (inj _ _ h).symm
  · intro kvs s0 rest hl
    rw [migrateOne_legacy q kvs s0 rest hl] at h
    refine ⟨_, (inj _ _ h).symm, ?_, ?_, ?_⟩
    · simp [lookup_assign]
    · simp [lookup_assign, lookup_filter_ne]
    · intro k h1 h2
      simp [lookup_assign, lookup_filter_ne, h1, h2]

theorem migrateLoop_spec (queries : List DataQuery) :
    ∀ acc : List DataQuery,
    (∀ q ∈ queries, HasStatistic q ∨ ∃ kvs s0 rest, IsLegacy q kvs s0 rest) →
    ∃ out, migrateLoop queries acc = Res.ok (acc ++ out) ∧
      List.Forall₂ MigratedFrom queries out := by
  induction queries with
  | nil => intro acc _; exact ⟨[], by simp [migrateLoop], List.Forall₂.nil⟩
  | cons q rest ih =>
    intro acc h
    have hq := h q (List.mem_cons_self _ _)
    have hok : ∃ q', migrateOne q = Res.ok q' := by
      rcases hq with hs | ⟨kvs, s0, r, hl⟩
      · exact ⟨_, migrateOne_hasStatistic q hs⟩
      · exact ⟨_, migrateOne_legacy q kvs s0 r hl⟩
    obtain ⟨q', hq'⟩ := hok
    obtain ⟨out, ho, hf⟩ := ih (acc ++ [q']) (fun x hx => h x (List.mem_cons_of_mem _ hx))
    refine ⟨q' :: out, ?_, List.Forall₂.cons (migratedFrom_of_migrateOne q q' hq hq') hf⟩
    simp [migrateLoop, hq', ho]

/-- On a list in which every query has a string-valued `statistic` or is in
the legacy format (no such `statistic`, a non-empty `statistics` string
array), `migrateLegacyQuery` returns a list of the same length and RefIDs,
each query related to its source by `MigratedFrom`: a query with `statistic`
is unchanged, a legacy query gets `statistic` set to the first element of
`statistics`, loses `statistics` and keeps every other field. -/
theorem migrateLegacyQuery_spec (queries : List DataQuery) (startTime endTime : Int)
    (h : ∀ q ∈ queries, HasStatistic q ∨ ∃ kvs s0 rest, IsLegacy q kvs s0 rest) :
    ∃ out, migrateLegacyQuery queries startTime endTime = Res.ok out ∧
      out.length = queries.length ∧
      out.map (fun q => q.RefID) = queries.map (fun q => q.RefID) ∧
      List.Forall₂ MigratedFrom queries out := by
  obtain ⟨out, ho, hf⟩ := migrateLoop_spec queries [] h
  refine ⟨out, by simpa [migrateLegacyQuery] using ho, hf.length_eq.symm, ?_, hf⟩
  clear ho h
  induction hf with
  | nil => rfl
  | cons hab _ ih => simp [hab.1, ih]

/-! ### `parseDimensions` -/

theorem appendValues_lookup_other (k : String) (values : List JVal) :
    ∀ parsed parsed1, appendValues k values parsed = Res.ok parsed1 →
      ∀ k1, k1 ≠ k → parsed1.lookup k1 = parsed.lookup k1 := by
  induction values with
  | nil =>
    intro parsed parsed1 h k1 _
    simp only [appendValues] at h
    injection h with h
    rw [h]
  | cons v rest ih =>
    intro parsed parsed1 h k1 hk
    cases v with
    | str s =>
      simp only [appendValues] at h
      rw [ih _ _ h k1 hk, lookup_assign]
      simp [hk]
    | _ => simp [appendValues] at h

theorem parseDimensionsLoop_stringsAsArrays (sel : String → Bool)
    (es : List (String × JVal)) :
    ∀ parsed : List (String × List String),
      (es.map (fun kv => kv.1)).Nodup →
      (∀ k ∈ es.map (fun kv => kv.1), parsed.lookup k = none) →
      parseDimensionsLoop (stringsAsArrays sel es) parsed = parseDimensionsLoop es parsed := by
  induction es with
  | nil => intro parsed _ _; rfl
  | cons kv rest ih =>
    intro parsed hnd hfresh
    obtain ⟨k, v⟩ := kv
    have hnd1 : (rest.map (fun kv => kv.1)).Nodup := (List.nodup_cons.mp hnd).2
    have hk : k ∉ rest.map (fun kv => kv.1) := (List.nodup_cons.mp hnd).1
    have hfresh_assign : ∀ val, ∀ k1 ∈ rest.map (fun kv => kv.1),
        (assign parsed k val).lookup k1 = none := by
      intro val k1 hk1
      have hne : k1 ≠ k := fun e => hk (e ▸ hk1)
      rw [lookup_assign]
      simp only [hne, if_false]
      exact hfresh k1 (List.mem_cons_of_mem _ hk1)
    cases v with
    | str s =>
      by_cases hs : sel k = true
      · have hidx : index parsed k = [] := by
          simp [index, hfresh k (List.mem_cons_self _ _)]
        simp only [stringsAsArrays, List.map_cons, hs, if_true, parseDimensionsLoop,
          appendValues, hidx, List.nil_append]
        exact ih _ hnd1 (hfresh_assign _)
      · simp only [stringsAsArrays, List.map_cons, hs, parseDimensionsLoop]
        exact ih _ hnd1 (hfresh_assign _)
    | arr xs =>
      simp only [stringsAsArrays, List.map_cons, parseDimensionsLoop]
      cases hav : appendValues k xs parsed with
      | ok parsed1 =>
        simp only []
        apply ih _ hnd1
        intro k1 hk1
        have hne : k1 ≠ k := fun e => hk (e ▸ hk1)
        rw [appendValues_lookup_other k xs parsed parsed1 hav k1 hne]
        exact hfresh k1 (List.mem_cons_of_mem _ hk1)
      | error e => rfl
      | panic m => rfl
    | null => simp [stringsAsArrays, parseDimensionsLoop]
    | bool b => simp [stringsAsArrays, parseDimensionsLoop]
    | num n => simp [stringsAsArrays, parseDimensionsLoop]
    | obj o => simp [stringsAsArrays, parseDimensionsLoop]

theorem appendValues_ok (k : String) (values : List JVal) :
    ∀ parsed parsed1, appendValues k values parsed = Res.ok parsed1 →
      ∃ ss, values = ss.map JVal.str ∧ index parsed1 k = index parsed k ++ ss ∧
        (ss ≠ [] → parsed1.lookup k = some (index parsed k ++ ss)) := by
  induction values with
  | nil =>
    intro parsed parsed1 h
    simp only [appendValues] at h
    injection h with h
    subst h
    exact ⟨[], rfl, by simp, fun hne => absurd rfl hne⟩
  | cons v rest ih =>
    intro parsed parsed1 h
    cases v with
    | str s =>
      simp only [appendValues] at h
      obtain ⟨ss, hrest, hidx, hlk⟩ := ih _ _ h
      have hi : index (assign parsed k (index parsed k ++ [s])) k = index parsed k ++ [s] := by
        simp [index, lookup_assign]
      refine ⟨s :: ss, by simp [hrest], ?_, ?_⟩
      · rw [hidx, hi]; simp
      · intro _
        by_cases hss : ss = []
        · subst hss
          have h0 : rest = [] := by simpa using hrest
          subst h0
          simp only [appendValues] at h
          injection h with h
          subst h
          simp [lookup_assign]
        · rw [hlk hss, hi]; simp
    | _ => simp [appendValues] at h

theorem appendValues_strs (k : String) (ss : List String) :
    ∀ parsed, ∃ parsed1, appendValues k (ss.map JVal.str) parsed = Res.ok parsed1 := by
  induction ss with
  | nil => intro parsed; exact ⟨parsed, rfl⟩
  | cons s rest ih =>
    intro parsed
    simp only [List.map_cons, appendValues]
    exact ih _

theorem parseDimensionsLoop_lookup_other (es : List (String × JVal)) :
    ∀ parsed final, parseDimensionsLoop es parsed = Res.ok final →
      ∀ k, k ∉ es.map (fun kv => kv.1) → final.lookup k = parsed.lookup k := by
  induction es with
  | nil =>
    intro parsed final h k _
    simp only [parseDimensionsLoop] at h
    injection h with h
    rw [h]
  | cons kv rest ih =>
    intro parsed final h k hk
    obtain ⟨k0, v⟩ := kv
    have hne : k ≠ k0 := fun e => hk (by simp [e])
    have hk1 : k ∉ rest.map (fun kv => kv.1) := fun hm => hk (List.mem_cons_of_mem _ hm)
    cases v with
    | str s =>
      simp only [parseDimensionsLoop] at h
      rw [ih _ _ h k hk1, lookup_assign]
      simp [hne]
    | arr xs =>
      simp only [parseDimensionsLoop] at h
      cases hav : appendValues k0 xs parsed with
      | ok parsed1 =>
        simp only [hav] at h
        rw [ih _ _ h k hk1, appendValues_lookup_other k0 xs parsed parsed1 hav k hne]
      | error e => simp [hav] at h
      | panic m => simp [hav] at h
    | null => simp [parseDimensionsLoop] at h
    | bool b => simp [parseDimensionsLoop] at h
    | num n => simp [parseDimensionsLoop] at h
    | obj o => simp [parseDimensionsLoop] at h

theorem parseDimensionsLoop_values (es : List (String × JVal)) :
    ∀ parsed final, parseDimensionsLoop es parsed = Res.ok final →
      (es.map (fun kv => kv.1)).Nodup →
      (∀ k ∈ es.map (fun kv => kv.1), parsed.lookup k = none) →
      ∀ k v, (k, v) ∈ es →
        (∀ s, v = JVal.str s → final.lookup k = some [s]) ∧
        (∀ xs, v = JVal.arr xs → ∃ ss : List String, xs = ss.map JVal.str ∧ index final k = ss ∧
          (ss ≠ [] → final.lookup k = some ss)) := by
  induction es with
  | nil => intro _ _ _ _ _ k v hm; simp at hm
  | cons kv rest ih =>
    intro parsed final h hnd hfresh k v hm
    obtain ⟨k0, v0⟩ := kv
    have hnd1 : (rest.map (fun kv => kv.1)).Nodup := (List.nodup_cons.mp hnd).2
    have hk0 : k0 ∉ rest.map (fun kv => kv.1) := (List.nodup_cons.mp hnd).1
    have hfresh0 : parsed.lookup k0 = none := hfresh k0 (List.mem_cons_self _ _)
    rcases List.mem_cons.mp hm with heq | hrest
    · -- the entry is the head
      injection heq with hk hv
      subst hk; subst hv
      cases v with
      | str s =>
        simp only [parseDimensionsLoop] at h
        have := parseDimensionsLoop_lookup_other rest _ _ h k hk0
        refine ⟨?_, ?_⟩
        · intro s1 hs1
          injection hs1 with hs1
          subst hs1
          rw [this, lookup_assign]; simp
        · intro xs hxs; cases hxs
      | arr xs =>
        simp only [parseDimensionsLoop] at h
        cases hav : appendValues k xs parsed with
        | ok parsed1 =>
          simp only [hav] at h
          have hl := parseDimensionsLoop_lookup_other rest _ _ h k hk0
          obtain ⟨ss, hxs, hidx, hlk⟩ := appendValues_ok k xs parsed parsed1 hav
          have hi0 : index parsed k = [] := by simp [index, hfresh0]
          refine ⟨fun s hs => (by cases hs), ?_⟩
          intro ys hys
          injection hys with hys
          subst hys
          refine ⟨ss, hxs, ?_, ?_⟩
          · have hfin : index final k = index parsed1 k := by simp only [index, hl]
            rw [hfin, hidx, hi0]; rfl
          · intro hne
            rw [hl, hlk hne, hi0]; rfl
        | error e => simp [hav] at h
        | panic m => simp [hav] at h
      | null => simp [parseDimensionsLoop] at h
      | bool b => simp [parseDimensionsLoop] at h
      | num n => simp [parseDimensionsLoop] at h
      | obj o => simp [parseDimensionsLoop] at h
    · -- the entry is in the tail
      have step : ∀ parsed1 : List (String × List String), (∀ k1, k1 ≠ k0 → parsed1.lookup k1 = parsed.lookup k1) →
          ∀ k1 ∈ rest.map (fun kv => kv.1), parsed1.lookup k1 = none := by
        intro parsed1 hp k1 hk1
        have hne : k1 ≠ k0 := fun e => hk0 (e ▸ hk1)
        rw [hp k1 hne]
        exact hfresh k1 (List.mem_cons_of_mem _ hk1)
      cases v0 with
      | str s =>
        simp only [parseDimensionsLoop] at h
        exact ih _ _ h hnd1 (step _ (fun k1 hne => by rw [lookup_assign]; simp [hne])) k v hrest
      | arr xs =>
        simp only [parseDimensionsLoop] at h
        cases hav : appendValues k0 xs parsed with
        | ok parsed1 =>
          simp only [hav] at h
          exact ih _ _ h hnd1
            (step _ (fun k1 hne => appendValues_lookup_other k0 xs parsed parsed1 hav k1 hne))
            k v hrest
        | error e => simp [hav] at h
        | panic m => simp [hav] at h
      | null => simp [parseDimensionsLoop] at h
      | bool b => simp [parseDimensionsLoop] at h
      | num n => simp [parseDimensionsLoop] at h
      | obj o => simp [parseDimensionsLoop] at h

theorem parseDimensionsLoop_unknownType (es : List (String × JVal)) :
    ∀ parsed,
      (∃ kv ∈ es, unknownType kv.2 = true) →
      (∀ k xs, (k, JVal.arr xs) ∈ es → ∃ ss : List String, xs = ss.map JVal.str) →
      parseDimensionsLoop es parsed = Res.error "unknown type as dimension value" := by
  induction es with
  | nil => intro _ h _; obtain ⟨kv, hm, _⟩ := h; simp at hm
  | cons kv rest ih =>
    intro parsed hbad harr
    obtain ⟨k0, v0⟩ := kv
    have hbad1 : unknownType v0 = false → ∃ kv ∈ rest, unknownType kv.2 = true := by
      intro hv0
      obtain ⟨kv, hm, hb⟩ := hbad
      rcases List.mem_cons.mp hm with heq | hr
      · subst heq; simp [hv0] at hb
      · exact ⟨kv, hr, hb⟩
    have harr1 : ∀ k xs, (k, JVal.arr xs) ∈ rest → ∃ ss : List String, xs = ss.map JVal.str :=
      fun k xs hm => harr k xs (List.mem_cons_of_mem _ hm)
    cases v0 with
    | str s =>
      simp only [parseDimensionsLoop]
      exact ih _ (hbad1 rfl) harr1
    | arr xs =>
      obtain ⟨ss, hss⟩ := harr k0 xs (List.mem_cons_self _ _)
      obtain ⟨parsed1, hp⟩ := appendValues_strs k0 ss parsed
      simp only [parseDimensionsLoop, hss, hp]
      exact ih _ (hbad1 rfl) harr1
    | null => simp [parseDimensionsLoop]
    | bool b => simp [parseDimensionsLoop]
    | num n => simp [parseDimensionsLoop]
    | obj o => simp [parseDimensionsLoop]


/-- Replacing string values of a `dimensions` object (with distinct keys, as
in every Go map) by one-element arrays does not change the outcome of
`parseDimensions`, whether a result, an error or a panic. -/
theorem parseDimensions_stringsAsArrays (sel : String → Bool) (model model1 : JVal)
    (es : List (String × JVal))
    (hm : model.Get "dimensions" = JVal.obj es)
    (hm1 : model1.Get "dimensions" = JVal.obj (stringsAsArrays sel es))
    (hnd : (es.map (fun kv => kv.1)).Nodup) :
    parseDimensions model1 = parseDimensions model := by
  simp only [parseDimensions, hm, hm1, JVal.MustMap]
  rw [parseDimensionsLoop_stringsAsArrays sel es [] hnd (by intro k _; rfl)]

/-- When `parseDimensions` returns a result, a key whose value is the string
`s` is mapped to `[s]`, and a key whose value is an array is mapped to the
strings of the array in their order (the array then holds strings only; the
key of an empty array is absent and indexes to the empty slice). -/
theorem parseDimensions_values (model : JVal) (es : List (String × JVal))
    (result : List (String × List String))
    (hm : model.Get "dimensions" = JVal.obj es)
    (hnd : (es.map (fun kv => kv.1)).Nodup)
    (h : parseDimensions model = Res.ok result) :
    ∀ k v, (k, v) ∈ es →
      (∀ s, v = JVal.str s → result.lookup k = some [s]) ∧
      (∀ xs, v = JVal.arr xs → ∃ ss : List String, xs = ss.map JVal.str ∧
        index result k = ss ∧ (ss ≠ [] → result.lookup k = some ss)) := by
  simp only [parseDimensions, hm, JVal.MustMap] at h
  cases hl : parseDimensionsLoop es [] with
  | ok final =>
    simp only [hl] at h
    injection h with h
    subst h
    intro k v hkv
    have hv := parseDimensionsLoop_values es [] final hl hnd (by intro k _; rfl) k v hkv
    simpa only [index, sortDimensions_lookup] using hv
  | error e => simp [hl] at h
  | panic m => simp [hl] at h

/-- When every array value of the `dimensions` object holds strings only, a
value that is neither a string nor an array makes `parseDimensions` fail with
"unknown type as dimension value". -/
theorem parseDimensions_unknownType (model : JVal) (es : List (String × JVal))
    (hm : model.Get "dimensions" = JVal.obj es)
    (hbad : ∃ kv ∈ es, unknownType kv.2 = true)
    (harr : ∀ k xs, (k, JVal.arr xs) ∈ es → ∃ ss : List String, xs = ss.map JVal.str) :
    parseDimensions model = Res.error "unknown type as dimension value" := by
  simp only [parseDimensions, hm, JVal.MustMap]
  rw [parseDimensionsLoop_unknownType es [] hbad harr]

/-! ### `parseQueries` -/

theorem length_assign {β : Type} (l : List (String × β)) (k : String) (v : β) :
    (assign l k v).length = if (l.lookup k).isSome then l.length else l.length + 1 := by
  induction l with
  | nil => simp [assign]
  | cons kv rest ih =>
    obtain ⟨k0, v0⟩ := kv
    by_cases h : k0 = k
    · subst h
      simp [assign, List.lookup]
    · have hb : (k0 == k) = false := by simpa using h
      have hb1 : (k == k0) = false := by simpa using (fun e : k = k0 => h e.symm)
      simp only [assign, hb, List.lookup, hb1, List.length_cons, Bool.false_eq_true,
        if_false, ih]
      split <;> rfl

theorem countEntries_assign_some (m : RequestQueries) (r : String)
    (inner inner1 : List (String × cloudWatchQuery)) (h : m.lookup r = some inner) :
    countEntries (assign m r inner1) + inner.length = countEntries m + inner1.length := by
  induction m with
  | nil => simp at h
  | cons kv rest ih =>
    obtain ⟨r0, i0⟩ := kv
    by_cases h0 : r0 = r
    · subst h0
      simp only [List.lookup, beq_self_eq_true] at h
      injection h with h
      subst h
      simp [assign, countEntries]
      omega
    · have hb : (r0 == r) = false := by simpa using h0
      have hb1 : (r == r0) = false := by simpa using (fun e : r = r0 => h0 e.symm)
      simp only [List.lookup, hb1] at h
      have := ih h
      simp only [assign, hb, countEntries, List.map_cons, List.sum_cons] at this ⊢
      simp only [Bool.false_eq_true, if_false, List.map_cons, List.sum_cons]
      omega

theorem countEntries_assign_none (m : RequestQueries) (r : String)
    (inner1 : List (String × cloudWatchQuery)) (h : m.lookup r = none) :
    countEntries (assign m r inner1) = countEntries m + inner1.length := by
  induction m with
  | nil => simp [assign, countEntries]
  | cons kv rest ih =>
    obtain ⟨r0, i0⟩ := kv
    by_cases h0 : r0 = r
    · subst h0
      simp [List.lookup] at h
    · have hb : (r0 == r) = false := by simpa using h0
      have hb1 : (r == r0) = false := by simpa using (fun e : r = r0 => h0 e.symm)
      simp only [List.lookup, hb1] at h
      have := ih h
      simp only [assign, hb, countEntries, List.map_cons, List.sum_cons] at this ⊢
      simp only [Bool.false_eq_true, if_false, List.map_cons, List.sum_cons]
      omega

theorem storeQuery_none (m : RequestQueries) (p : cloudWatchQuery)
    (hl : m.lookup p.Region = none) :
    storeQuery m p = assign (assign m p.Region []) p.Region [(p.Id, p)] := by
  simp [storeQuery, hl, lookup_assign, assign]

theorem storeQuery_some (m : RequestQueries) (p : cloudWatchQuery)
    (inner0 : List (String × cloudWatchQuery)) (hl : m.lookup p.Region = some inner0) :
    storeQuery m p = assign m p.Region (assign inner0 p.Id p) := by
  simp [storeQuery, hl]

theorem entryAt_storeQuery (m : RequestQueries) (p : cloudWatchQuery) (r i : String) :
    entryAt (storeQuery m p) r i
      = if r = p.Region ∧ i = p.Id then some p else entryAt m r i := by
  cases hl : m.lookup p.Region with
  | none =>
    rw [storeQuery_none m p hl]
    simp only [entryAt, lookup_assign]
    by_cases hr : r = p.Region
    · subst hr
      by_cases hi : i = p.Id
      · subst hi; simp [List.lookup]
      · have hb : (i == p.Id) = false := by simpa using hi
        simp [List.lookup, hi, hb, hl]
    · simp [hr]
  | some inner0 =>
    rw [storeQuery_some m p inner0 hl]
    simp only [entryAt, lookup_assign]
    by_cases hr : r = p.Region
    · subst hr
      by_cases hi : i = p.Id
      · subst hi; simp [lookup_assign]
      · simp [lookup_assign, hi, hl]
    · simp [hr]

theorem countEntries_storeQuery (m : RequestQueries) (p : cloudWatchQuery) :
    countEntries (storeQuery m p)
      = countEntries m + (if (entryAt m p.Region p.Id).isSome then 0 else 1) := by
  cases hl : m.lookup p.Region with
  | none =>
    have h1 : (assign m p.Region ([] : List (String × cloudWatchQuery))).lookup p.Region
        = some [] := by simp [lookup_assign]
    have h2 := countEntries_assign_some (assign m p.Region []) p.Region []
      [(p.Id, p)] h1
    have h3 := countEntries_assign_none m p.Region [] hl
    rw [storeQuery_none m p hl]
    simp only [entryAt, hl, Option.getD_none, List.lookup_nil, Option.isSome_none,
      Bool.false_eq_true, if_false]
    simp only [List.length_nil, Nat.add_zero, List.length_singleton] at h2 h3
    rw [h2, h3]
  | some inner0 =>
    have h2 := countEntries_assign_some m p.Region inner0 (assign inner0 p.Id p) hl
    rw [storeQuery_some m p inner0 hl]
    simp only [entryAt, hl, Option.getD_some]
    rw [length_assign] at h2
    by_cases hs : (inner0.lookup p.Id).isSome = true
    · simp only [hs, if_true] at h2 ⊢
      omega
    · simp only [hs, Bool.false_eq_true, if_false] at h2 ⊢
      omega

theorem foldl_storeQuery (ps : List cloudWatchQuery) :
    ∀ m : RequestQueries,
      (ps.map (fun p => (p.Region, p.Id))).Nodup →
      (∀ p ∈ ps, entryAt m p.Region p.Id = none) →
      countEntries (ps.foldl storeQuery m) = countEntries m + ps.length ∧
      (∀ p ∈ ps, entryAt (ps.foldl storeQuery m) p.Region p.Id = some p) ∧
      (∀ r i, (∀ p ∈ ps, (p.Region, p.Id) ≠ (r, i)) →
        entryAt (ps.foldl storeQuery m) r i = entryAt m r i) := by
  induction ps with
  | nil => intro m _ _; simp
  | cons p rest ih =>
    intro m hnd hfresh
    have hnd1 := (List.nodup_cons.mp hnd).2
    have hp : (p.Region, p.Id) ∉ rest.map (fun p => (p.Region, p.Id)) :=
      (List.nodup_cons.mp hnd).1
    have hne : ∀ q ∈ rest, ¬ (q.Region = p.Region ∧ q.Id = p.Id) := by
      intro q hq hqe
      apply hp
      rw [List.mem_map]
      exact ⟨q, hq, by rw [hqe.1, hqe.2]⟩
    have hfresh1 : ∀ q ∈ rest, entryAt (storeQuery m p) q.Region q.Id = none := by
      intro q hq
      rw [entryAt_storeQuery, if_neg (hne q hq)]
      exact hfresh q (List.mem_cons_of_mem _ hq)
    obtain ⟨hc, hs, ho⟩ := ih (storeQuery m p) hnd1 hfresh1
    simp only [List.foldl_cons]
    refine ⟨?_, ?_, ?_⟩
    · rw [hc, countEntries_storeQuery, hfresh p (List.mem_cons_self _ _)]
      simp only [Option.isSome_none, Bool.false_eq_true, if_false, List.length_cons]
      omega
    · intro q hq
      rcases List.mem_cons.mp hq with rfl | hq
      · rw [ho q.Region q.Id, entryAt_storeQuery]
        · simp
        · intro q1 hq1 he
          injection he with h1 h2
          exact hne q1 hq1 ⟨h1, h2⟩
      · exact hs q hq
    · intro r i hall
      rw [ho r i (fun q hq => hall q (List.mem_cons_of_mem _ hq)), entryAt_storeQuery]
      have : ¬ (r = p.Region ∧ i = p.Id) := by
        intro he
        exact hall p (List.mem_cons_self _ _) (by rw [he.1, he.2])
      simp [this]

theorem parseRequestQuery_ok_RefId (lib : GoLib) (model : JVal) (refId : String)
    (startTime endTime : Int) (q : cloudWatchQuery)
    (h : parseRequestQuery lib model refId startTime endTime = Res.ok q) :
    q.RefId = refId := by
  unfold parseRequestQuery at h
  repeat' split at h
  all_goals try (simp at h; done)
  all_goals
    cases hp : parsePeriod lib ((model.Get "period").MustString "") startTime endTime with
    | error e => simp [hp] at h
    | ok p =>
      simp only [hp] at h
      injection h with h
      subst h
      rfl

theorem parsedOf_RefId (lib : GoLib) (startTime endTime : Int) (q : DataQuery)
    (p : cloudWatchQuery) (h : parsedOf lib startTime endTime q = some p) :
    p.RefId = q.RefID := by
  unfold parsedOf at h
  cases hj : NewJson q.JSON with
  | error e => simp [hj] at h
  | ok model =>
    simp only [hj] at h
    cases hp : parseRequestQuery lib model q.RefID startTime endTime with
    | ok p1 =>
      simp only [hp] at h
      injection h with h
      subst h
      exact parseRequestQuery_ok_RefId lib model q.RefID startTime endTime p1 hp
    | error e => simp [hp] at h
    | panic m => simp [hp] at h

theorem parseQueriesLoop_entries (lib : GoLib) (startTime endTime : Int)
    (qs : List DataQuery) :
    ∀ (m0 m : RequestQueries),
      parseQueriesLoop lib startTime endTime qs m0 = Res.ok m →
      ∃ ps : List cloudWatchQuery, m = ps.foldl storeQuery m0 ∧
        List.Forall₂ (fun q p => parsedOf lib startTime endTime q = some p)
          (qs.filter isMetricQuery) ps := by
  induction qs with
  | nil =>
    intro m0 m h
    simp only [parseQueriesLoop] at h
    injection h with h
    exact ⟨[], by simp [h], by simp⟩
  | cons q rest ih =>
    intro m0 m h
    cases hj : NewJson q.JSON with
    | error e => simp [parseQueriesLoop, hj] at h
    | ok model =>
      by_cases hs : skipsQuery model = true
      · simp only [parseQueriesLoop, hj, hs, if_true] at h
        obtain ⟨ps, hm, hf⟩ := ih m0 m h
        refine ⟨ps, hm, ?_⟩
        have : isMetricQuery q = false := by simp [isMetricQuery, hj, hs]
        simpa [List.filter_cons, this] using hf
      · simp only [parseQueriesLoop, hj, hs, Bool.false_eq_true, if_false] at h
        cases hp : parseRequestQuery lib model q.RefID startTime endTime with
        | ok parsed =>
          simp only [hp] at h
          obtain ⟨ps, hm, hf⟩ := ih _ m h
          refine ⟨parsed :: ps, by simpa using hm, ?_⟩
          have hmq : isMetricQuery q = true := by
            simp only [isMetricQuery, hj]
            simpa using hs
          have hpo : parsedOf lib startTime endTime q = some parsed := by
            simp [parsedOf, hj, hp]
          rw [List.filter_cons, if_pos hmq]
          exact List.Forall₂.cons hpo hf
        | error e => simp [hp] at h
        | panic msg => simp [hp] at h

theorem migrateOne_preserves (q q1 : DataQuery) (h : migrateOne q = Res.ok q1) :
    q1.RefID = q.RefID ∧ isMetricQuery q1 = isMetricQuery q := by
  unfold migrateOne at h
  cases hj : NewJson q.JSON with
  | error e => simp [hj] at h
  | ok model =>
    simp only [hj] at h
    cases hst : (model.Get "statistic").String_ with
    | ok s =>
      simp only [hst] at h
      injection h with h
      subst h
      exact ⟨rfl, rfl⟩
    | error e =>
      simp only [hst] at h
      cases hstats : (model.Get "statistics").MustStringArray with
      | nil => simp [hstats] at h
      | cons s0 rest =>
        simp only [hstats, JVal.MarshalJSON] at h
        injection h with h
        subst h
        refine ⟨rfl, ?_⟩
        cases model with
        | obj kvs =>
          cases hq : q.JSON with
          | malformed b => simp [hq, NewJson] at hj
          | doc v =>
            simp only [hq, NewJson] at hj
            injection hj with hj
            subst hj
            simp [isMetricQuery, NewJson, hq, skipsQuery, JVal.Del, JVal.Set, JVal.Get,
              lookup_assign, lookup_filter_ne]
        | _ => simp [JVal.Get, JVal.MustStringArray, JVal.StringArray] at hstats

theorem migrateLoop_preserves (qs : List DataQuery) :
    ∀ acc out, migrateLoop qs acc = Res.ok out →
      ∃ out1, out = acc ++ out1 ∧
        List.Forall₂ (fun q q1 => q1.RefID = q.RefID ∧ isMetricQuery q1 = isMetricQuery q)
          qs out1 := by
  induction qs with
  | nil =>
    intro acc out h
    simp only [migrateLoop] at h
    injection h with h
    exact ⟨[], by simp [h], List.Forall₂.nil⟩
  | cons q rest ih =>
    intro acc out h
    cases hq : migrateOne q with
    | ok q1 =>
      simp only [migrateLoop, hq] at h
      obtain ⟨out1, ho, hf⟩ := ih _ _ h
      exact ⟨q1 :: out1, by simpa using ho, List.Forall₂.cons (migrateOne_preserves q q1 hq) hf⟩
    | error e => simp [migrateLoop, hq] at h
    | panic m => simp [migrateLoop, hq] at h

theorem filter_refIDs (qs out : List DataQuery)
    (hf : List.Forall₂ (fun q q1 => q1.RefID = q.RefID ∧ isMetricQuery q1 = isMetricQuery q)
      qs out) :
    (out.filter isMetricQuery).map (fun q => q.RefID)
      = (qs.filter isMetricQuery).map (fun q => q.RefID) := by
  induction hf with
  | nil => rfl
  | @cons a b l1 l2 hab _ ih =>
    by_cases hm : isMetricQuery a = true
    · have hb : isMetricQuery b = true := by rw [hab.2, hm]
      simp [List.filter_cons, hm, hb, hab.1, ih]
    · have ha : isMetricQuery a = false := by simpa using hm
      have hb : isMetricQuery b = false := by rw [hab.2, ha]
      simp [List.filter_cons, ha, hb, ih]

theorem parsed_refIds (lib : GoLib) (startTime endTime : Int)
    (qs : List DataQuery) (ps : List cloudWatchQuery)
    (hf : List.Forall₂ (fun q p => parsedOf lib startTime endTime q = some p) qs ps) :
    ps.map (fun p => p.RefId) = qs.map (fun q => q.RefID) := by
  induction hf with
  | nil => rfl
  | cons hab _ ih =>
    simp [parsedOf_RefId lib startTime endTime _ _ hab, ih]

/-- Whenever `parseQueries` accepts a list, its result is built by storing,
in order, one parsed query per input metric query (same RefIDs, same order;
queries of another type store nothing); when the (region, id) keys of the
parsed queries are pairwise distinct, the number of entries equals the number
of input metric queries and every parsed query is the entry under its key. -/
theorem parseQueries_entries (lib : GoLib) (queries : List DataQuery)
    (startTime endTime : Int) (m : RequestQueries)
    (h : parseQueries lib queries startTime endTime = Res.ok m) :
    ∃ ps : List cloudWatchQuery, m = ps.foldl storeQuery [] ∧
      ps.map (fun p => p.RefId) = (queries.filter isMetricQuery).map (fun q => q.RefID) ∧
      ((ps.map (fun p => (p.Region, p.Id))).Nodup →
        countEntries m = (queries.filter isMetricQuery).length ∧
        ∀ p ∈ ps, entryAt m p.Region p.Id = some p) := by
  unfold parseQueries at h
  cases hmig : migrateLegacyQuery queries startTime endTime with
  | error e => simp [hmig] at h
  | panic msg => simp [hmig] at h
  | ok mq =>
    simp only [hmig] at h
    obtain ⟨out1, hout, hpres⟩ := migrateLoop_preserves queries [] mq hmig
    simp only [List.nil_append] at hout
    subst hout
    obtain ⟨ps, hm, hf⟩ := parseQueriesLoop_entries lib startTime endTime mq [] m h
    have hids : ps.map (fun p => p.RefId)
        = (queries.filter isMetricQuery).map (fun q => q.RefID) := by
      rw [parsed_refIds lib startTime endTime _ ps hf, filter_refIDs queries mq hpres]
    refine ⟨ps, hm, hids, ?_⟩
    intro hnd
    obtain ⟨hc, hs, _⟩ := foldl_storeQuery ps [] hnd (by intro p _; rfl)
    have hlen : ps.length = (queries.filter isMetricQuery).length := by
      have := congrArg List.length hids
      simpa using this
    subst hm
    refine ⟨?_, hs⟩
    rw [hc, ← hlen]
    simp [countEntries]

/-! ### The claims on the request parser -/

/-- C7: on a query whose well-formed JSON is the empty object (no `statistic`,
no `statistics`), `migrateLegacyQuery` returns no list: the index `stats[0]`
panics. -/
theorem migrateLegacyQuery_panics_without_statistics :
    migrateLegacyQuery [emptyQuery] 0 0
      = Res.panic "runtime error: index out of range [0] with length 0" := rfl

/-- C8: two metric queries "A" and "B" with the same region and the same id
are both accepted by `parseQueries`, yet the result holds one entry only, the
one of "B"; the entry of "A" has been overwritten. -/
theorem parseQueries_overwrites_equal_id :
    parseQueries asciiLib [queryA, queryB] 0 3600000000000
        = Res.ok [("us-east-1", [("m1", parsedB)])] ∧
    countEntries [("us-east-1", [("m1", parsedB)])] = 1 ∧
    ([queryA, queryB].filter isMetricQuery).length = 2 :=
  ⟨rfl, rfl, rfl⟩

/-- Whenever `parseRequestQuery` accepts a model, `ReturnData` is true when
the type reads as the empty string and the negation of `hide` otherwise. -/
theorem parseRequestQuery_ok_ReturnData (lib : GoLib) (model : JVal) (refId : String)
    (startTime endTime : Int) (q : cloudWatchQuery)
    (h : parseRequestQuery lib model refId startTime endTime = Res.ok q) :
    q.ReturnData =
      (if (model.Get "type").MustString "" == "" then true
       else !(model.Get "hide").MustBool false) := by
  unfold parseRequestQuery at h
  repeat' split at h
  all_goals try (simp at h; done)
  all_goals
    cases hp : parsePeriod lib ((model.Get "period").MustString "") startTime endTime with
    | error e => simp [hp] at h
    | ok p =>
      simp only [hp] at h
      injection h with h
      subst h
      rfl

/-- C9, as amended: every model that `parseRequestQuery` accepts is an
object; if its `type` field is absent or the empty string then `ReturnData`
is true whatever `hide` is; if `type` is a non-empty string then `ReturnData`
is the negation of `hide`, where a `hide` that is absent or not a boolean
counts as false; and if `type` is present but not a string (it then reads as
the empty string) `ReturnData` is true whatever `hide` is. -/
theorem parseRequestQuery_returnData (lib : GoLib) (model : JVal) (refId : String)
    (startTime endTime : Int) (q : cloudWatchQuery)
    (h : parseRequestQuery lib model refId startTime endTime = Res.ok q) :
    ∃ kvs, model = JVal.obj kvs ∧
      ((kvs.lookup "type" = none ∨ kvs.lookup "type" = some (JVal.str "")) →
        q.ReturnData = true) ∧
      (∀ t, kvs.lookup "type" = some (JVal.str t) → t ≠ "" →
        q.ReturnData = !(match kvs.lookup "hide" with
                         | some (JVal.bool b) => b
                         | _ => false)) ∧
      (∀ v, kvs.lookup "type" = some v → (∀ t, v ≠ JVal.str t) →
        q.ReturnData = true) := by
  have hr := parseRequestQuery_ok_ReturnData lib model refId startTime endTime q h
  cases model with
  | obj kvs =>
    refine ⟨kvs, rfl, ?_, ?_, ?_⟩
    · rintro (ht | ht) <;> simp [hr, JVal.Get, ht, JVal.MustString]
    · intro t ht hne
      rw [hr]
      simp only [JVal.Get, ht, Option.getD_some, JVal.MustString]
      have : (t == "") = false := by simpa using hne
      simp only [this]
      rcases hh : kvs.lookup "hide" with _ | v
      · simp [JVal.MustBool]
      · cases v <;> simp [JVal.MustBool]
    · intro v ht hv
      rw [hr]
      simp only [JVal.Get, ht, Option.getD_some]
      cases v <;> simp [JVal.MustString]
      exact absurd rfl (hv _)
  | _ => simp [parseRequestQuery, JVal.Get, JVal.String_] at h

/-- C9 at a model of type "timeSeriesQuery" with `hide` set: the model is
accepted and the parsed query has `ReturnData` false. -/
theorem parseRequestQuery_returnData_witness :
    parseRequestQuery asciiLib hiddenModel "C" 0 0 = Res.ok hiddenParsed ∧
    ∃ kvs, hiddenModel = JVal.obj kvs ∧
      ((kvs.lookup "type" = none ∨ kvs.lookup "type" = some (JVal.str "")) →
        hiddenParsed.ReturnData = true) ∧
      (∀ t, kvs.lookup "type" = some (JVal.str t) → t ≠ "" →
        hiddenParsed.ReturnData = !(match kvs.lookup "hide" with
                         | some (JVal.bool b) => b
                         | _ => false)) ∧
      (∀ v, kvs.lookup "type" = some v → (∀ t, v ≠ JVal.str t) →
        hiddenParsed.ReturnData = true) :=
  ⟨rfl, parseRequestQuery_returnData asciiLib hiddenModel "C" 0 0 hiddenParsed rfl⟩

/-- C9 as stated fails on a model whose `type` is the number 5 and whose
`hide` is true: the field is present and not empty, so the negation of
`hide`, false, is what the sentence gives, yet the model is accepted with
`ReturnData` true, because `MustString` reads a value that is not a string as
the empty string. -/
theorem parseRequestQuery_returnData_nonstring_type :
    parseRequestQuery asciiLib numericTypeModel "D" 0 0 = Res.ok numericTypeParsed ∧
    numericTypeModel.Get "type" = JVal.num "5" ∧
    numericTypeModel.Get "hide" = JVal.bool true ∧
    numericTypeParsed.ReturnData = true ∧
    numericTypeParsed.ReturnData ≠ !((numericTypeModel.Get "hide").MustBool false) :=
  ⟨rfl, rfl, rfl, rfl, by decide⟩

/-- C10: on a `dimensions` object holding the array `[5]` under "a" and the
number 7 under "b", `parseDimensions` panics in the unchecked type assertion
when the loop visits "a" first, and fails with "unknown type as dimension
value" only when it visits "b" first. -/
theorem parseDimensions_panics_before_unknown_type :
    parseDimensions mixedDimensions
        = Res.panic "interface conversion: interface {} is not string" ∧
    parseDimensions mixedDimensionsSwapped
        = Res.error "unknown type as dimension value" :=
  ⟨rfl, rfl⟩

/-! ## WeChat notifier -/

/-- `MustString` reads a non-empty string exactly from a property that is a
non-empty string. -/
theorem mustString_ne_empty_iff (settings : JVal) (key : String) :
    (settings.Get key).MustString "" ≠ "" ↔ NonEmptyStringProperty settings key := by
  constructor
  · intro h
    cases settings with
    | obj kvs =>
      rcases hl : kvs.lookup key with _ | v
      · simp [JVal.Get, hl, JVal.MustString] at h
      · cases v with
        | str s =>
          refine ⟨kvs, s, rfl, hl, ?_⟩
          simpa [JVal.Get, hl, JVal.MustString] using h
        | _ => simp [JVal.Get, hl, JVal.MustString] at h
    | _ => simp [JVal.Get, JVal.MustString] at h
  · rintro ⟨kvs, s, hs, hl, hne⟩
    subst hs
    simpa [JVal.Get, hl, JVal.MustString] using hne

/-- A property that `MustString` reads as non-empty is that string. -/
theorem get_eq_str_of_nonEmpty (settings : JVal) (key : String)
    (h : (settings.Get key).MustString "" ≠ "") :
    settings.Get key = JVal.str ((settings.Get key).MustString "") := by
  cases hg : settings.Get key with
  | str s => rfl
  | _ => simp [hg, JVal.MustString] at h

/-- C11: for every settings object, `NewWeChatNotifier` fails with a
`ValidationError` if and only if one of the properties agentid, corpid,
secret, touser is missing or not a non-empty string; the `Reason` of the
error names the first such property in the order agentid, corpid, secret,
touser; otherwise the notifier holds the four settings values in `AgentId`,
`CorpId`, `Secret` and `ToUser` (and the base built by `NewNotifierBase`); in
every case the list of network requests sent is unchanged. -/
theorem NewWeChatNotifier_validation {Base : Type} (NewNotifierBase : AlertNotification → Base)
    (model : AlertNotification) (sent : List HttpRequest) :
    ((∃ e, (NewWeChatNotifier NewNotifierBase model sent).1 = Except.error e) ↔
      ¬ (NonEmptyStringProperty model.Settings "agentid" ∧
         NonEmptyStringProperty model.Settings "corpid" ∧
         NonEmptyStringProperty model.Settings "secret" ∧
         NonEmptyStringProperty model.Settings "touser")) ∧
    (∀ e, (NewWeChatNotifier NewNotifierBase model sent).1 = Except.error e →
      (¬ NonEmptyStringProperty model.Settings "agentid" →
        e.Reason = missingReason "agentid") ∧
      (NonEmptyStringProperty model.Settings "agentid" →
        ¬ NonEmptyStringProperty model.Settings "corpid" →
        e.Reason = missingReason "corpid") ∧
      (NonEmptyStringProperty model.Settings "agentid" →
        NonEmptyStringProperty model.Settings "corpid" →
        ¬ NonEmptyStringProperty model.Settings "secret" →
        e.Reason = missingReason "secret") ∧
      (NonEmptyStringProperty model.Settings "agentid" →
        NonEmptyStringProperty model.Settings "corpid" →
        NonEmptyStringProperty model.Settings "secret" →
        ¬ NonEmptyStringProperty model.Settings "touser" →
        e.Reason = missingReason "touser")) ∧
    (∀ n, (NewWeChatNotifier NewNotifierBase model sent).1 = Except.ok n →
      model.Settings.Get "agentid" = JVal.str n.AgentId ∧
      model.Settings.Get "corpid" = JVal.str n.CorpId ∧
      model.Settings.Get "secret" = JVal.str n.Secret ∧
      model.Settings.Get "touser" = JVal.str n.ToUser ∧
      n.NotifierBase = NewNotifierBase model) ∧
    (NewWeChatNotifier NewNotifierBase model sent).2 = sent := by
  have ha := mustString_ne_empty_iff model.Settings "agentid"
  have hb := mustString_ne_empty_iff model.Settings "corpid"
  have hc := mustString_ne_empty_iff model.Settings "secret"
  have hd := mustString_ne_empty_iff model.Settings "touser"
  have ga := get_eq_str_of_nonEmpty model.Settings "agentid"
  have gb := get_eq_str_of_nonEmpty model.Settings "corpid"
  have gc := get_eq_str_of_nonEmpty model.Settings "secret"
  have gd := get_eq_str_of_nonEmpty model.Settings "touser"
  rw [← ha, ← hb, ← hc, ← hd]
  by_cases a : (model.Settings.Get "agentid").MustString "" = ""
  · simp [NewWeChatNotifier, a, missingReason]
  by_cases b : (model.Settings.Get "corpid").MustString "" = ""
  · simp [NewWeChatNotifier, a, b, missingReason]
  by_cases c : (model.Settings.Get "secret").MustString "" = ""
  · simp [NewWeChatNotifier, a, b, c, missingReason]
  by_cases d : (model.Settings.Get "touser").MustString "" = ""
  · simp [NewWeChatNotifier, a, b, c, d, missingReason]
  simp [NewWeChatNotifier, a, b, c, d]
  exact ⟨ga a, gb b, gc c, gd d⟩

/-- C11 at two settings objects: with all four properties the notifier holds
their values; without `corpid`, and with a number under `secret`, the error
names corpid; no request is sent in either case. -/
theorem NewWeChatNotifier_validation_witness :
    NewWeChatNotifier (fun m => m.Name) wechatModel [] = (Except.ok wechatNotifier, []) ∧
    (wechatModel.Settings.Get "agentid" = JVal.str wechatNotifier.AgentId ∧
      wechatModel.Settings.Get "corpid" = JVal.str wechatNotifier.CorpId ∧
      wechatModel.Settings.Get "secret" = JVal.str wechatNotifier.Secret ∧
      wechatModel.Settings.Get "touser" = JVal.str wechatNotifier.ToUser ∧
      wechatNotifier.NotifierBase = wechatModel.Name) ∧
    NewWeChatNotifier (fun m => m.Name) wechatModelNoCorpid []
      = (Except.error { Reason := "Could not find corpid property in settings" }, []) ∧
    (ValidationError.mk "Could not find corpid property in settings").Reason
      = missingReason "corpid" :=
  ⟨rfl,
   (NewWeChatNotifier_validation (fun m => m.Name) wechatModel []).2.2.1 wechatNotifier rfl,
   rfl,
   ((NewWeChatNotifier_validation (fun m => m.Name) wechatModelNoCorpid []).2.1
      { Reason := "Could not find corpid property in settings" } rfl).2.1
      ⟨_, "1000002", rfl, rfl, by decide⟩
      (by
        rintro ⟨kvs, s, hs, hl, _⟩
        have hk : kvs = [ ("agentid", JVal.str "1000002"), ("secret", JVal.num "5"),
            ("touser", JVal.str "@all") ] := by
          simp only [wechatModelNoCorpid] at hs
          injection hs with hs
          exact hs.symm
        subst hk
        simp [List.lookup] at hl)⟩

/-- `GetAccessToken`, in contrast, sends one request whenever the request can
be built: the token request with its two headers is added to the list of
requests sent. -/
theorem GetAccessToken_sends {Base : Type} (lib : HttpLib) (this : WeChatNotifier Base)
    (sent : List HttpRequest) (request0 : HttpRequest)
    (h : lib.NewRequest "POST"
      (GET_TOKEN_ENDPOINT ++ "?corpid=" ++ this.CorpId ++ "&corpsecret=" ++ this.Secret)
        = Except.ok request0) :
    (this.GetAccessToken lib sent).2 = sent ++
      [{ request0 with
         Header := request0.Header ++
           [("Content-Type", "application/json"), ("User-Agent", "Grafana")] }] := by
  unfold WeChatNotifier.GetAccessToken
  simp only [h]
  repeat' split
  all_goals rfl

end Grafana
